import Mathlib

/-!
# Sixel decoder and colour model of the terminal backend

Shallow embedding of `src/vtbackend/Color.h`, of `MockPty::read` of
`src/vtpty/MockPty.cpp`, and of the Sixel parser and image builder exercised by
`src/vtbackend/SixelParser_test.cpp`.

* `Color.h` is embedded from its source text: 8-bit channels are `Fin 256`,
  32-bit unsigned values are `Nat` reduced modulo `2^32` wherever the C++
  arithmetic can wrap.
* `MockPty.cpp` is embedded from its source text with 64-bit `size_t`
  arithmetic; of the storage it writes to only `bytesAvailable()` enters.
* `SixelParser.h/.cpp` are not among the source files; the parser, the palette
  and the image builder are written from the specification, and every
  scenario of `SixelParser_test.cpp` that is used to fix an open detail is
  named in the doc comment of the definition it fixes.
-/

namespace terminal

/-! ## Machine integers -/

/-- Conversion `static_cast<uint8_t>(n)` of a non-negative integer. -/
def toUInt8 (n : Nat) : Fin 256 := ⟨n % 256, Nat.mod_lt n (by decide)⟩

/-- Modulus of `uint32_t` arithmetic. -/
def u32Modulus : Nat := 4294967296

/-- Wrapping `uint32_t` addition. -/
def u32Add (a b : Nat) : Nat := (a + b) % u32Modulus

/-- Wrapping `uint32_t` subtraction. -/
def u32Sub (a b : Nat) : Nat := (a % u32Modulus + (u32Modulus - b % u32Modulus)) % u32Modulus

/-- Wrapping `uint32_t` multiplication. -/
def u32Mul (a b : Nat) : Nat := (a * b) % u32Modulus

/-- The function `std::clamp<unsigned>(v, lo, hi)`. -/
def clampUnsigned (v lo hi : Nat) : Nat := if v < lo then lo else if hi < v then hi else v

/-! ## `Color.h`: RGBColor -/

/-- The `struct RGBColor` of `Color.h`: three `uint8_t` channels, all `0` by default. -/
structure RGBColor where
  red : Fin 256 := 0
  green : Fin 256 := 0
  blue : Fin 256 := 0
deriving DecidableEq, Repr

namespace RGBColor

/-- The constructor `explicit RGBColor(uint32_t rgb)`. -/
def ofUInt32 (rgb : Nat) : RGBColor :=
  { red := toUInt8 ((rgb >>> 16) &&& 0xFF)
    green := toUInt8 ((rgb >>> 8) &&& 0xFF)
    blue := toUInt8 (rgb &&& 0xFF) }

/-- The member `RGBColor::value()`. -/
def value (c : RGBColor) : Nat :=
  ((c.red.val <<< 16) ||| (c.green.val <<< 8) ||| c.blue.val) % u32Modulus

/-- The member `RGBColor::inverse()`. -/
def inverse (c : RGBColor) : RGBColor :=
  { red := toUInt8 (255 - c.red.val)
    green := toUInt8 (255 - c.green.val)
    blue := toUInt8 (255 - c.blue.val) }

/-- The `operator+(RGBColor, RGBColor)`: channel sums are computed in `int`
and clamped as `unsigned` before the cast to `uint8_t`. -/
def add (a b : RGBColor) : RGBColor :=
  { red := toUInt8 (clampUnsigned (a.red.val + b.red.val) 0 255)
    green := toUInt8 (clampUnsigned (a.green.val + b.green.val) 0 255)
    blue := toUInt8 (clampUnsigned (a.blue.val + b.blue.val) 0 255) }

end RGBColor

/-- The integer handed to `sqrt` by `distance(e1, e2)`: all operands are
`uint32_t`, so every subtraction, product and sum wraps modulo `2^32`. -/
def distanceRadicand (e1 e2 : RGBColor) : Nat :=
  let rmean := u32Add e1.red.val e2.red.val / 2
  let r := u32Sub e1.red.val e2.red.val
  let g := u32Sub e1.green.val e2.green.val
  let b := u32Sub e1.blue.val e2.blue.val
  u32Add
    (u32Add (u32Mul (u32Mul (u32Add 512 rmean) r) r >>> 8) (u32Mul (u32Mul 4 g) g))
    (u32Mul (u32Mul (u32Sub 767 rmean) b) b >>> 8)

/-- The function `distance(e1, e2)` of `Color.h`. The library routine `sqrt`
(on the `uint32_t` radicand converted to `double`) is taken as a parameter. -/
def distance {α : Type} (sqrt : Nat → α) (e1 e2 : RGBColor) : α :=
  sqrt (distanceRadicand e1 e2)

/-! ## `Color.h`: RGBAColor -/

/-- The `struct RGBAColor` of `Color.h`: one `uint32_t` word. -/
structure RGBAColor where
  value : Nat := 0
deriving DecidableEq, Repr

namespace RGBAColor

/-- The constructor `RGBAColor(uint8_t r, uint8_t g, uint8_t b, uint8_t a)`. -/
def ofChannels (r g b a : Fin 256) : RGBAColor :=
  { value := (r.val <<< 24) ||| (g.val <<< 16) ||| (b.val <<< 8) ||| a.val }

/-- The constructor `RGBAColor(RGBColor color)`. -/
def ofRGB (color : RGBColor) : RGBAColor :=
  ofChannels color.red color.green color.blue 0xFF

/-- The constructor `RGBAColor(RGBColor color, uint8_t alpha)`. -/
def ofRGBAlpha (color : RGBColor) (alpha : Fin 256) : RGBAColor :=
  ofChannels color.red color.green color.blue alpha

/-- The member `RGBAColor::red()`. -/
def red (c : RGBAColor) : Fin 256 := toUInt8 ((c.value >>> 24) &&& 0xFF)

/-- The member `RGBAColor::green()`. -/
def green (c : RGBAColor) : Fin 256 := toUInt8 ((c.value >>> 16) &&& 0xFF)

/-- The member `RGBAColor::blue()`. -/
def blue (c : RGBAColor) : Fin 256 := toUInt8 ((c.value >>> 8) &&& 0xFF)

/-- The member `RGBAColor::alpha()`. -/
def alpha (c : RGBAColor) : Fin 256 := toUInt8 (c.value &&& 0xFF)

/-- The member `RGBAColor::rgb()`. -/
def rgb (c : RGBAColor) : RGBColor := RGBColor.ofUInt32 ((c.value >>> 8) % u32Modulus)

end RGBAColor

/-! ## Geometry -/

/-- The pair `CellLocation` (line, column) of signed integers. -/
structure CellLocation where
  line : Int := 0
  column : Int := 0
deriving DecidableEq, Repr

/-- The pair `ImageSize` (width, height). -/
structure ImageSize where
  width : Nat
  height : Nat
deriving DecidableEq, Repr

/-! ## Sixel colour palette -/

/-- Modelled from the spec: `SixelColorPalette` (its header `SixelParser.h` is
missing). An ordered mapping from palette index to `RGBColor` with a current
size and a hard maximum; unset indices hold black. -/
structure SixelColorPalette where
  colors : Nat → RGBColor
  size : Nat
  maxSize : Nat

namespace SixelColorPalette

/-- Modelled from the spec: the constructor `SixelColorPalette(size, maxSize)`
(missing); every slot starts unset (black) and the size never exceeds the
configured maximum. -/
def create (size maxSize : Nat) : SixelColorPalette :=
  { colors := fun _ => {}, size := min size maxSize, maxSize := maxSize }

/-- Modelled from the spec: the clamping rule of the missing palette, an
out-of-range index is clamped to `size - 1`. -/
def clampIndex (p : SixelColorPalette) (i : Nat) : Nat := min i (p.size - 1)

/-- Modelled from the spec: the missing `SixelColorPalette::at(i)`, the colour
at index `i` with `i` clamped (`at` is a reserved word, hence `colorAt`). -/
def colorAt (p : SixelColorPalette) (i : Nat) : RGBColor := p.colors (p.clampIndex i)

/-- Modelled from the spec: the missing `SixelColorPalette::setColor(i, rgb)`,
stores with the same clamping rule. -/
def setColor (p : SixelColorPalette) (i : Nat) (c : RGBColor) : SixelColorPalette :=
  { p with colors := fun j => if j = p.clampIndex i then c else p.colors j }

end SixelColorPalette

/-! ## Sixel image builder -/

/-- Modelled from the spec: `SixelImageBuilder` (its source `SixelParser.cpp`
is missing). The pixel buffer is a grid of `RGBAColor` addressed by (row,
column); the builder also holds the sixel cursor, the current palette index,
the aspect ratio, the maximum size and the image size, which is either
declared by a raster preamble (`explicitSize`) or follows what has been
plotted so far. -/
structure SixelImageBuilder where
  maxSize : ImageSize
  colors : SixelColorPalette
  size : ImageSize
  buffer : Int → Int → RGBAColor
  sixelCursor : CellLocation
  currentColor : Nat
  explicitSize : Bool
  aspectRatio : Nat

/-- Modelled from the spec: the aspect ratio `pan / pad` of the missing
builder, `1` when `pad == 0`. For `pad > 0` the spec says only that the
quotient is rounded. Rounding up is taken here; it gives the two values that
`SixelParser_test.cpp` observes (`12;34` gives 1 and `15;2` gives 8), and so
would rounding half up with a minimum of 1. Apart from these two values and
the case `pad == 0`, no theorem below depends on the way of rounding. -/
def aspectRatioOf (pan pad : Nat) : Nat :=
  if pad = 0 then 1 else max 1 ((pan + pad - 1) / pad)

namespace SixelImageBuilder

/-- Modelled from the spec: the missing constructor
`SixelImageBuilder(maxSize, pan, pad, defaultColor, palette)`. The cursor
starts at (0, 0), the current colour is index 0, every pixel is the default
colour, and the image size starts at the smallest legal size (1, 1).
`SixelParser.vertical_cursor_advance` observes the width 1; the height of a
builder that has parsed nothing is fixed by neither the spec nor the tests,
and no theorem below depends on it beyond its being at most 6. -/
def create (maxSize : ImageSize) (pan pad : Nat) (defaultColor : RGBAColor)
    (palette : SixelColorPalette) : SixelImageBuilder :=
  { maxSize := maxSize
    colors := palette
    size := { width := 1, height := 1 }
    buffer := fun _ _ => defaultColor
    sixelCursor := {}
    currentColor := 0
    explicitSize := false
    aspectRatio := aspectRatioOf pan pad }

/-- Modelled from the spec: the missing accessor `SixelImageBuilder::at(pos)`,
the pixel at a (line, column) position (`at` is a reserved word, hence
`pixelAt`). -/
def pixelAt (b : SixelImageBuilder) (pos : CellLocation) : RGBAColor :=
  b.buffer pos.line pos.column

/-- Modelled from the spec: the rectangle that pixel writes are confined to:
the declared raster size once there is one, the maximum size before. -/
def bounds (b : SixelImageBuilder) : ImageSize :=
  if b.explicitSize then b.size else b.maxSize

/-- Modelled from the spec: whether a position is inside the image rectangle. -/
def inBounds (b : SixelImageBuilder) (pos : CellLocation) : Prop :=
  0 ≤ pos.line ∧ pos.line < b.bounds.height ∧ 0 ≤ pos.column ∧ pos.column < b.bounds.width

instance (b : SixelImageBuilder) (pos : CellLocation) : Decidable (b.inBounds pos) := by
  unfold inBounds; infer_instance

/-- Modelled from the spec: the colour of the currently selected palette index
of the missing builder. -/
def currentColorValue (b : SixelImageBuilder) : RGBColor := b.colors.colorAt b.currentColor

/-- Modelled from the spec: the missing `setRaster(pan, pad, size)`: sets the
aspect ratio and the declared size clamped to the maximum; a width or height
of 0 leaves the current one. -/
def setRaster (b : SixelImageBuilder) (pan pad : Nat) (sz : ImageSize) : SixelImageBuilder :=
  { b with
    aspectRatio := aspectRatioOf pan pad
    size :=
      { width := if sz.width = 0 then b.size.width else min sz.width b.maxSize.width
        height := if sz.height = 0 then b.size.height else min sz.height b.maxSize.height }
    explicitSize := true }

/-- Modelled from the spec: the missing `setColor(i, rgb)`, forwards to the palette. -/
def setColor (b : SixelImageBuilder) (i : Nat) (c : RGBColor) : SixelImageBuilder :=
  { b with colors := b.colors.setColor i c }

/-- Modelled from the spec: the missing `useColor(i)`, selects the current
palette index, clamped. -/
def useColor (b : SixelImageBuilder) (i : Nat) : SixelImageBuilder :=
  { b with currentColor := b.colors.clampIndex i }

/-- Modelled from the spec: one channel of the missing `defineRgbColor`: a
percentage, clamped to its valid range 0..100, scaled to 0..255. -/
def percentToChannel (v : Nat) : Fin 256 := toUInt8 (min v 100 * 255 / 100)

/-- Modelled from the spec: the missing `defineRgbColor(i, r, g, b)`, stores
`(r*255/100, g*255/100, b*255/100)` at `i`. -/
def defineRgbColor (b : SixelImageBuilder) (i r g bl : Nat) : SixelImageBuilder :=
  b.setColor i { red := percentToChannel r, green := percentToChannel g, blue := percentToChannel bl }

/-- Modelled from the spec: the missing `defineHslColor(i, h, l, s)`; the
HLS to RGB conversion itself is a parameter. -/
def defineHslColor (hsl2rgb : Nat → Nat → Nat → RGBColor) (b : SixelImageBuilder)
    (i h l s : Nat) : SixelImageBuilder :=
  b.setColor i (hsl2rgb h l s)

/-- Modelled from the spec: the pixel write of the missing builder. A write
outside the image rectangle is dropped. Without a declared raster the image
size grows to cover the written pixel. -/
def write (b : SixelImageBuilder) (pos : CellLocation) (c : RGBColor) : SixelImageBuilder :=
  if b.inBounds pos then
    { b with
      buffer := fun r k => if r = pos.line ∧ k = pos.column then RGBAColor.ofRGB c else b.buffer r k
      size :=
        if b.explicitSize then b.size
        else
          { width := max b.size.width (pos.column.toNat + 1)
            height := max b.size.height (pos.line.toNat + 1) } }
  else b

/-- Modelled from the spec: one pin of a sixel: bit `k` of the sixel, when set,
writes the current colour at row `line + k` of the cursor column. The cursor
line counts pixel rows (`newline` adds 6 to it), as `SixelParser.newline`
observes: the second band starts at cursor line 6 and fills rows 6..11. -/
def renderPin (sixel : Nat) (origin : CellLocation) (b : SixelImageBuilder) (k : Nat) :
    SixelImageBuilder :=
  if sixel.testBit k then
    b.write { line := origin.line + (k : Int), column := origin.column } b.currentColorValue
  else b

/-- Modelled from the spec: the missing `render(sixel)`: plots the six pins,
bit 0 topmost, and advances the column by 1 whether or not anything was
written. -/
def render (b : SixelImageBuilder) (sixel : Nat) : SixelImageBuilder :=
  let plotted := [0, 1, 2, 3, 4, 5].foldl (renderPin sixel b.sixelCursor) b
  { plotted with
    sixelCursor := { line := b.sixelCursor.line, column := b.sixelCursor.column + 1 } }

/-- Modelled from the spec: the missing `renderRepeated(n, sixel)`:
`render(sixel)` executed `n` times, an `n` of 0 counting as 1. -/
def renderRepeated (b : SixelImageBuilder) (n sixel : Nat) : SixelImageBuilder :=
  (fun x => x.render sixel)^[if n = 0 then 1 else n] b

/-- Modelled from the spec: the missing `rewind()`: column 0, line unchanged. -/
def rewind (b : SixelImageBuilder) : SixelImageBuilder :=
  { b with sixelCursor := { line := b.sixelCursor.line, column := 0 } }

/-- Modelled from the spec: the missing `newline()`: column 0 and the line six
rows further down. Without a declared raster the image height follows the
cursor line (within the maximum), as `SixelParser.vertical_cursor_advance`
observes. -/
def newline (b : SixelImageBuilder) : SixelImageBuilder :=
  { b with
    sixelCursor := { line := b.sixelCursor.line + 6, column := 0 }
    size :=
      if b.explicitSize then b.size
      else
        { width := b.size.width
          height := min (max b.size.height (b.sixelCursor.line + 6).toNat) b.maxSize.height } }

/-- Modelled from the spec: the missing `finalize()`. The buffer is a grid
addressed by position, so cropping or extending it to the image size changes
no pixel inside the image, nor the cursor or the palette. What `finalize()`
does to the size of a builder without raster is not stated by the spec; it is
left as it is here, which `SixelParser.vertical_cursor_advance` (size (1, 24)
after four `$-`) allows. -/
def finalize (b : SixelImageBuilder) : SixelImageBuilder := b

end SixelImageBuilder

/-! ## Sixel parser -/

/-- Modelled from the spec: the states of the missing `SixelParser`. -/
inductive State where
  | Ground
  | RasterSettings
  | ColorIntroducer
  | RepeatIntroducer
deriving DecidableEq, Repr

/-- Modelled from the spec: the missing `SixelParser`: the state symbol, the
parameters of the command being read (empty until the first digit) and the
builder it drives. -/
structure SixelParser where
  state : State
  params : List Nat
  builder : SixelImageBuilder

/-- Largest value of a parameter. -/
def maxParam : Nat := 65535

/-- The bytes `0`..`9`. -/
def isDigit (byte : Nat) : Prop := 0x30 ≤ byte ∧ byte ≤ 0x39

instance (byte : Nat) : Decidable (isDigit byte) := by unfold isDigit; infer_instance

/-- The bytes `?`..`~`, each encoding the sixel `byte - 0x3F`. -/
def isSixel (byte : Nat) : Prop := 0x3F ≤ byte ∧ byte ≤ 0x7E

instance (byte : Nat) : Decidable (isSixel byte) := by unfold isSixel; infer_instance

/-- Modelled from the spec: a digit is appended to the current (last)
parameter of the missing parser, which is clamped to `maxParam`; the first
digit of a command starts the first parameter. -/
def appendDigit : List Nat → Nat → List Nat
  | [], d => [min d maxParam]
  | [p], d => [min (p * 10 + d) maxParam]
  | p :: q :: ps, d => p :: appendDigit (q :: ps) d

/-- Modelled from the spec: `;` ends the current parameter of the missing
parser and begins the next; an empty parameter is 0. -/
def nextParam : List Nat → List Nat
  | [] => [0, 0]
  | p :: ps => (p :: ps) ++ [0]

namespace SixelParser

/-- Modelled from the spec: a parser of the missing `SixelParser` in Ground
with no parameters, on a builder. -/
def create (b : SixelImageBuilder) : SixelParser :=
  { state := State.Ground, params := [], builder := b }

/-- Modelled from the spec: the raster command of the missing parser:
`setRaster(pan, pad, size(width, height))`, 1 standing for any missing
parameter; parameters beyond the fourth are ignored. -/
def rasterCommand (params : List Nat) (b : SixelImageBuilder) : SixelImageBuilder :=
  b.setRaster (params.getD 0 1) (params.getD 1 1)
    { width := params.getD 2 1, height := params.getD 3 1 }

/-- Modelled from the spec: the colour command of the missing parser. With
the index alone, or a type other than 1 and 2, it is `useColor(index)`; type 1
defines an HLS colour and type 2 an RGB colour. A definition also selects the
index it defines: in `SixelParser.setAndUseColor` the sixel painted right
after four definitions has the colour of the last one. -/
def colorCommand (hsl2rgb : Nat → Nat → Nat → RGBColor) (params : List Nat)
    (b : SixelImageBuilder) : SixelImageBuilder :=
  let index := params.getD 0 0
  if params.length ≤ 1 then b.useColor index
  else if params.getD 1 0 = 1 then
    (b.defineHslColor hsl2rgb index (params.getD 2 0) (params.getD 3 0) (params.getD 4 0)).useColor
      index
  else if params.getD 1 0 = 2 then
    (b.defineRgbColor index (params.getD 2 0) (params.getD 3 0) (params.getD 4 0)).useColor index
  else b.useColor index

/-- Modelled from the spec: the Ground transitions of the missing parser. A
recognised byte is a command boundary, which resets the parameters; any other
byte is ignored. -/
def ground (p : SixelParser) (byte : Nat) : SixelParser :=
  if isSixel byte then
    { state := State.Ground, params := [], builder := p.builder.render (byte - 0x3F) }
  else if byte = 0x21 then { state := State.RepeatIntroducer, params := [], builder := p.builder }
  else if byte = 0x22 then { state := State.RasterSettings, params := [], builder := p.builder }
  else if byte = 0x23 then { state := State.ColorIntroducer, params := [], builder := p.builder }
  else if byte = 0x24 then { state := State.Ground, params := [], builder := p.builder.rewind }
  else if byte = 0x2D then { state := State.Ground, params := [], builder := p.builder.newline }
  else p

/-- Modelled from the spec: leaving a parameter state of the missing parser
runs the command of that state on the parameters read so far and returns to
Ground; a repeat without its sixel byte is dropped. -/
def flush (hsl2rgb : Nat → Nat → Nat → RGBColor) (p : SixelParser) : SixelParser :=
  match p.state with
  | State.Ground => p
  | State.RasterSettings =>
    { state := State.Ground, params := [], builder := rasterCommand p.params p.builder }
  | State.ColorIntroducer =>
    { state := State.Ground, params := [], builder := colorCommand hsl2rgb p.params p.builder }
  | State.RepeatIntroducer => { state := State.Ground, params := [], builder := p.builder }

/-- Modelled from the spec: one byte through the state machine of the missing
`SixelParser`. -/
def parse (hsl2rgb : Nat → Nat → Nat → RGBColor) (p : SixelParser) (byte : Nat) : SixelParser :=
  match p.state with
  | State.Ground => p.ground byte
  | State.RasterSettings =>
    if isDigit byte then { p with params := appendDigit p.params (byte - 0x30) }
    else if byte = 0x3B then { p with params := nextParam p.params }
    else (p.flush hsl2rgb).ground byte
  | State.ColorIntroducer =>
    if isDigit byte then { p with params := appendDigit p.params (byte - 0x30) }
    else if byte = 0x3B then { p with params := nextParam p.params }
    else (p.flush hsl2rgb).ground byte
  | State.RepeatIntroducer =>
    if isDigit byte then { p with params := appendDigit p.params (byte - 0x30) }
    else if isSixel byte then
      { state := State.Ground
        params := []
        builder := p.builder.renderRepeated (p.params.getD 0 1) (byte - 0x3F) }
    else (p.flush hsl2rgb).ground byte

/-- Modelled from the spec: the missing `parseFragment(bytes)`: feeds the
bytes through the state machine, from the state the last call left. -/
def parseFragment (hsl2rgb : Nat → Nat → Nat → RGBColor) (p : SixelParser)
    (bytes : List Nat) : SixelParser :=
  bytes.foldl (parse hsl2rgb) p

/-- Modelled from the spec: the missing `done()`: flushes a pending
parameter state and finalizes the builder. -/
def done (hsl2rgb : Nat → Nat → Nat → RGBColor) (p : SixelParser) : SixelParser :=
  let q := p.flush hsl2rgb
  { q with builder := q.builder.finalize }

end SixelParser

/-- The number `n` written in decimal, as bytes. -/
def decimal (n : Nat) : List Nat :=
  if n = 0 then [0x30] else ((Nat.digits 10 n).reverse).map (fun d => 0x30 + d)


/-! ## Auxiliary notions used by the statements -/

/-- Everything of a builder except its pixels and its undeclared size: two
builders related by `SameFrame` have the same palette, colour, cursor, maximum
size, raster flag, aspect ratio and write rectangle. -/
def SameFrame (b c : SixelImageBuilder) : Prop :=
  c.maxSize = b.maxSize ∧ c.colors = b.colors ∧ c.sixelCursor = b.sixelCursor
    ∧ c.currentColor = b.currentColor ∧ c.explicitSize = b.explicitSize
    ∧ c.aspectRatio = b.aspectRatio ∧ c.bounds = b.bounds

/-- Pin `j` of a sixel plotted from `origin` hits the pixel (`r`, `k`) of the
image of `b`: the bit is set, the target is (`r`, `k`) and it lies inside the
image rectangle. -/
def PinHits (sixel : Nat) (origin : CellLocation) (b : SixelImageBuilder) (r k : Int)
    (j : Nat) : Prop :=
  sixel.testBit j = true ∧ b.inBounds { line := origin.line + (j : Int), column := origin.column }
    ∧ r = origin.line + (j : Int) ∧ k = origin.column


/-- The fixture `sixelImageBuilder(size, defaultColor)` of `SixelParser_test.cpp`:
a builder on a 16-colour palette (at most 256) whose raster is set to its
maximum size. -/
def sixelImageBuilder (size : ImageSize) (defaultColor : RGBAColor) : SixelImageBuilder :=
  (SixelImageBuilder.create size 1 1 defaultColor (SixelColorPalette.create 16 256)).setRaster 1 1
    size

/-- The parser of `TEST_CASE("SixelParser.ground_010101")`: a 2x8 image of
default colour (0x10, 0x20, 0x30, 0xFF) with palette entry 0 set to
(0xFF, 0xFF, 0x42). -/
def groundTestParser : SixelParser :=
  SixelParser.create
    ((sixelImageBuilder { width := 2, height := 8 } (RGBAColor.ofChannels 0x10 0x20 0x30 0xFF)).setColor
      0 { red := 0xFF, green := 0xFF, blue := 0x42 })


/-- The value the parser accumulates for a parameter from the digits `ds`
(most significant first), starting from `acc`. -/
def accumulate (acc : Nat) (ds : List Nat) : Nat :=
  ds.foldl (fun a d => min (a * 10 + d) maxParam) acc

/-- The decimal digits of `n`, most significant first (`[0]` for 0). -/
def decimalDigits (n : Nat) : List Nat :=
  if n = 0 then [0] else (Nat.digits 10 n).reverse

/-- The parameters `n₁;n₂;…` written in decimal and separated by `;`. -/
def paramBytes : List Nat → List Nat
  | [] => []
  | [n] => decimal n
  | n :: m :: ns => decimal n ++ 0x3B :: paramBytes (m :: ns)


/-- The parser of `TEST_CASE("SixelParser.raster")`: a 640x480 image of default
colour (0, 0, 0, 0xFF). -/
def rasterTestParser : SixelParser :=
  SixelParser.create (sixelImageBuilder { width := 640, height := 480 } (RGBAColor.ofChannels 0 0 0 0xFF))

/-- A parser like that of `SixelParser.raster` on a builder of maximum size
70000x480. -/
def wideTestParser : SixelParser :=
  SixelParser.create
    (sixelImageBuilder { width := 70000, height := 480 } (RGBAColor.ofChannels 0 0 0 0xFF))


/-- The numbers of an RGB colour definition `#index;2;red;green;blue`. -/
structure ColorDefinition where
  index : Nat
  red : Nat
  green : Nat
  blue : Nat

namespace ColorDefinition

/-- The bytes of the definition `#index;2;red;green;blue`, numbers in decimal. -/
def bytes (d : ColorDefinition) : List Nat :=
  0x23 :: (decimal d.index ++ 0x3B :: 0x32 :: 0x3B :: (decimal d.red
    ++ 0x3B :: (decimal d.green ++ 0x3B :: decimal d.blue)))

/-- The colour `(red*255/100, green*255/100, blue*255/100)` a definition stands
for, percentages above 100 counting as 100. -/
def color (d : ColorDefinition) : RGBColor :=
  { red := SixelImageBuilder.percentToChannel d.red
    green := SixelImageBuilder.percentToChannel d.green
    blue := SixelImageBuilder.percentToChannel d.blue }

end ColorDefinition

/-- The bytes of several colour definitions in a row. -/
def definitionsBytes : List ColorDefinition → List Nat
  | [] => []
  | d :: ds => d.bytes ++ definitionsBytes ds

/-- What the colour command does to the builder for the definition `d`, whose
numbers arrive clamped to the largest parameter. -/
def SixelImageBuilder.define (b : SixelImageBuilder) (d : ColorDefinition) : SixelImageBuilder :=
  (b.defineRgbColor (min d.index maxParam) (min d.red maxParam) (min d.green maxParam)
    (min d.blue maxParam)).useColor (min d.index maxParam)

/-- The parser of `TEST_CASE("SixelParser.setAndUseColor")`: a 5x6 image of
default colour (0, 0, 0, 0xFF). -/
def colorTestParser : SixelParser :=
  SixelParser.create (sixelImageBuilder { width := 5, height := 6 } (RGBAColor.ofChannels 0 0 0 0xFF))


/-- The bytes of an ASCII string literal, used to quote the inputs of
`SixelParser_test.cpp`. -/
def ascii (s : String) : List Nat := s.toList.map Char.toNat

/-- The pixel loops of `SixelParser_test.cpp`: every pixel (x, y) with
`x < size().width` and `y < size().height` equals `expected y x`. -/
def imageMatches (b : SixelImageBuilder) (expected : Nat → Nat → RGBAColor) : Bool :=
  (List.range b.size.height).all fun y =>
    (List.range b.size.width).all fun x =>
      decide (b.pixelAt { line := (y : Int), column := (x : Int) } = expected y x)

/-- The parser used by the tests of `SixelParser_test.cpp`: the fixture builder
of the given size and default colour, with palette entry 0 set to `pin`. -/
def testParser (width height : Nat) (defaultColor : RGBAColor) (pin : RGBColor) : SixelParser :=
  SixelParser.create ((sixelImageBuilder { width := width, height := height } defaultColor).setColor 0 pin)

/-! ## `Color.h`: scalar product, mix and colour pairs -/

/-- The `float` operations used by `operator*(RGBColor, float)` and `mix`, taken
as parameters: the conversion `static_cast<float>(uint8_t)`, the product, the
sum, the difference `1.0f - t`, `std::clamp(x, 0.0f, 255.0f)` and the conversion
`static_cast<uint8_t>(float)`. The sum is used only by the specification of
`mix`, never by the code. -/
structure FloatOps (F : Type) where
  ofUInt8 : Fin 256 → F
  mul : F → F → F
  add : F → F → F
  oneMinus : F → F
  clamp : F → F
  toUInt8 : F → Fin 256

/-- The `operator*(RGBColor c, float s)`: each channel is converted to `float`,
multiplied, clamped to [0, 255] and converted back to `uint8_t`. -/
def RGBColor.scale {F : Type} (ops : FloatOps F) (c : RGBColor) (s : F) : RGBColor :=
  { red := ops.toUInt8 (ops.clamp (ops.mul (ops.ofUInt8 c.red) s))
    green := ops.toUInt8 (ops.clamp (ops.mul (ops.ofUInt8 c.green) s))
    blue := ops.toUInt8 (ops.clamp (ops.mul (ops.ofUInt8 c.blue) s)) }

/-- The function `mix(RGBColor a, RGBColor b, float t)`: `a * t + b * (1.0f - t)`
with the operators of `RGBColor`. -/
def mix {F : Type} (ops : FloatOps F) (a b : RGBColor) (t : F) : RGBColor :=
  (a.scale ops t).add (b.scale ops (ops.oneMinus t))

/-- The value the specification gives to `mix(a, b, t)`: per channel
`a·t + b·(1−t)`, clamped to [0, 255] and converted to 8 bits once. -/
def mixAsSpecified {F : Type} (ops : FloatOps F) (a b : RGBColor) (t : F) : RGBColor :=
  { red := ops.toUInt8 (ops.clamp (ops.add (ops.mul (ops.ofUInt8 a.red) t)
      (ops.mul (ops.ofUInt8 b.red) (ops.oneMinus t))))
    green := ops.toUInt8 (ops.clamp (ops.add (ops.mul (ops.ofUInt8 a.green) t)
      (ops.mul (ops.ofUInt8 b.green) (ops.oneMinus t))))
    blue := ops.toUInt8 (ops.clamp (ops.add (ops.mul (ops.ofUInt8 a.blue) t)
      (ops.mul (ops.ofUInt8 b.blue) (ops.oneMinus t)))) }

/-- A non-negative fraction `num / den`, `den` positive. -/
structure Fraction where
  num : Nat
  den : Nat
deriving DecidableEq, Repr

/-- Exact arithmetic on non-negative fractions. On operands whose results are
representable in binary32 without rounding (as for the scalar 1/2 and 8-bit
channels) it computes what the `float` operations compute; `oneMinus` is meant
for scalars in [0, 1]. -/
def exactFloatOps : FloatOps Fraction where
  ofUInt8 := fun c => { num := c.val, den := 1 }
  mul := fun x y => { num := x.num * y.num, den := x.den * y.den }
  add := fun x y => { num := x.num * y.den + y.num * x.den, den := x.den * y.den }
  oneMinus := fun t => { num := t.den - t.num, den := t.den }
  clamp := fun x => if 255 * x.den < x.num then { num := 255, den := 1 } else x
  toUInt8 := fun x => toUInt8 (x.num / x.den)

/-- The `struct RGBColorPair` of `Color.h`. -/
structure RGBColorPair where
  foreground : RGBColor
  background : RGBColor
deriving DecidableEq, Repr

namespace RGBColorPair

/-- The member `RGBColorPair::isTooSimilar(threshold)`. The `double` routine
`sqrt` and the comparison `<=` of `double` are parameters. -/
def isTooSimilar {α : Type} (sqrt : Nat → α) (le : α → α → Bool) (p : RGBColorPair)
    (threshold : α) : Bool :=
  le (distance sqrt p.foreground p.background) threshold

/-- The member `RGBColorPair::distinct(threshold)`. -/
def distinct {α : Type} (sqrt : Nat → α) (le : α → α → Bool) (p : RGBColorPair)
    (threshold : α) : RGBColorPair :=
  if p.isTooSimilar sqrt le threshold then
    { foreground := p.foreground.inverse, background := p.foreground }
  else p

end RGBColorPair

/-! ## `Color.h`: Color -/

/-- The `enum class ColorType : uint8_t`: a value of the underlying type. -/
structure ColorType where
  raw : Fin 256
deriving DecidableEq, Repr

namespace ColorType

/-- The enumerator `ColorType::Undefined`. -/
def Undefined : ColorType := { raw := 0 }

/-- The enumerator `ColorType::Default`. -/
def Default : ColorType := { raw := 1 }

/-- The enumerator `ColorType::Bright`. -/
def Bright : ColorType := { raw := 2 }

/-- The enumerator `ColorType::Indexed`. -/
def Indexed : ColorType := { raw := 3 }

/-- The enumerator `ColorType::RGB`. -/
def RGB : ColorType := { raw := 4 }

end ColorType

/-- The `struct Color` of `Color.h`: one packed `uint32_t` word, `0` by default. -/
structure Color where
  content : Nat := 0
deriving DecidableEq, Repr

namespace Color

/-- The private constructor `Color(ColorType type, uint8_t value)`. -/
def ofTypeValue (type : ColorType) (value : Fin 256) : Color :=
  { content := ((type.raw.val <<< 24) % u32Modulus) ||| (value.val &&& 0xFF) }

/-- The constructor `Color(RGBColor rgb)`. -/
def ofRGBColor (rgb : RGBColor) : Color :=
  { content := rgb.value ||| ((ColorType.RGB.raw.val <<< 24) % u32Modulus) }

/-- The member `Color::type()`. -/
def type (c : Color) : ColorType := { raw := toUInt8 ((c.content >>> 24) &&& 0xFF) }

/-- The member `Color::index()`. -/
def index (c : Color) : Fin 256 := toUInt8 (c.content &&& 0xFF)

/-- The member `Color::rgb()`. -/
def rgb (c : Color) : RGBColor := RGBColor.ofUInt32 (c.content &&& 0xFFFFFF)

/-- The static member `Color::Undefined()`. -/
def Undefined : Color := ofTypeValue ColorType.Undefined 0

/-- The static member `Color::Default()`. -/
def Default : Color := ofTypeValue ColorType.Default 0

/-- The static member `Color::Bright(uint8_t index)`. -/
def Bright (index : Fin 256) : Color := ofTypeValue ColorType.Bright index

/-- The static member `Color::Indexed(uint8_t index)`. -/
def Indexed (index : Fin 256) : Color := ofTypeValue ColorType.Indexed index

end Color

/-- The function `isUndefined(Color)`. -/
def isUndefined (color : Color) : Bool := decide (color.type = ColorType.Undefined)

/-- The function `isDefaultColor(Color)`. -/
def isDefaultColor (color : Color) : Bool := decide (color.type = ColorType.Default)

/-- The function `isIndexedColor(Color)`. -/
def isIndexedColor (color : Color) : Bool := decide (color.type = ColorType.Indexed)

/-- The function `isBrightColor(Color)`. -/
def isBrightColor (color : Color) : Bool := decide (color.type = ColorType.Bright)

/-- The function `isRGBColor(Color)`. -/
def isRGBColor (color : Color) : Bool := decide (color.type = ColorType.RGB)

/-- The five variants of a colour as a sum type, the reading of the
specification: Undefined, Default, Bright(i), Indexed(i) and RGB(r, g, b). -/
inductive ColorVariant where
  | undefined
  | default
  | bright (index : Fin 256)
  | indexed (index : Fin 256)
  | rgb (color : RGBColor)
deriving DecidableEq, Repr

/-- The packed `Color` that `Color.h` builds for a variant: `Color::Undefined()`,
`Color::Default()`, `Color::Bright(i)`, `Color::Indexed(i)` or `Color(RGBColor)`. -/
def ColorVariant.toColor : ColorVariant → Color
  | ColorVariant.undefined => Color.Undefined
  | ColorVariant.default => Color.Default
  | ColorVariant.bright i => Color.Bright i
  | ColorVariant.indexed i => Color.Indexed i
  | ColorVariant.rgb c => Color.ofRGBColor c

/-- The colour white, (255, 255, 255). -/
def white : RGBColor := { red := 255, green := 255, blue := 255 }

/-- The scalar 0.5, which binary32 represents exactly. -/
def oneHalf : Fraction := { num := 1, den := 2 }

/-- The parser of `SixelParser.setAndUseColor` after its five columns are
painted: the cursor is at column 5 of the 5-wide image. -/
def fullRowTestParser : SixelParser :=
  colorTestParser.parseFragment (fun _ _ _ => {}) [0x7E, 0x7E, 0x7E, 0x7E, 0x7E]

/-- The parser of `SixelParser.raster` after `"15;2` and `done()`: its aspect
ratio is 8. -/
def aspect8TestParser : SixelParser :=
  SixelParser.done (fun _ _ _ => {})
    (rasterTestParser.parseFragment (fun _ _ _ => {}) [0x22, 0x31, 0x35, 0x3B, 0x32])

/-! ## Exact value of the distance radicand -/

/-- The absolute difference of two channel values. -/
def absDiff (a b : Nat) : Nat := if b ≤ a then a - b else b - a

/-- The radicand of `distance` in unbounded integers, as the specification
writes it: `⌊(512+rmean)·dr²/256⌋ + 4·dg² + ⌊(767−rmean)·db²/256⌋` with the
absolute channel differences `dr`, `dg`, `db` and `rmean = ⌊(r1+r2)/2⌋`. -/
def exactRadicand (e1 e2 : RGBColor) : Nat :=
  (512 + (e1.red.val + e2.red.val) / 2) * absDiff e1.red.val e2.red.val ^ 2 / 256
    + 4 * absDiff e1.green.val e2.green.val ^ 2
    + (767 - (e1.red.val + e2.red.val) / 2) * absDiff e1.blue.val e2.blue.val ^ 2 / 256

/-! ## Inputs of the cursor scenarios -/

/-- Modulus of `size_t` arithmetic (64 bits). -/
def sizeModulus : Nat := 18446744073709551616

/-- Wrapping `size_t` subtraction. -/
def sizeSub (a b : Nat) : Nat := (a % sizeModulus + (sizeModulus - b % sizeModulus)) % sizeModulus

/-- The members of `MockPty` that `MockPty::read` uses: the string
`_outputBuffer`, whose size fits `size_t`, and the `size_t` offset
`_outputReadOffset`. -/
structure MockPty where
  outputBuffer : List Nat
  outputReadOffset : Nat
  bufferFits : outputBuffer.length < sizeModulus

/-- The function `MockPty::read(storage, timeout, size)`. Of the storage only
`storage.bytesAvailable()` enters; the result is the chunk handed to
`storage.writeAtEnd` together with the `MockPty` after the call. The chunk is
the view of `n` characters of the buffer starting at the read offset. -/
def MockPty.read (pty : MockPty) (bytesAvailable size : Nat) : List Nat × MockPty :=
  let n := min size (min (sizeSub pty.outputBuffer.length pty.outputReadOffset) bytesAvailable)
  let chunk := (pty.outputBuffer.drop pty.outputReadOffset).take n
  (chunk, { pty with outputReadOffset := (pty.outputReadOffset + n) % sizeModulus })

/-- A `MockPty` whose output buffer holds `abcde`, with the first byte read. -/
def mockPtyExample : MockPty :=
  { outputBuffer := [0x61, 0x62, 0x63, 0x64, 0x65], outputReadOffset := 1, bufferFits := by decide }

/-! ## Thresholds of `isTooSimilar` -/

/-- A stand-in for the `double` values that `isTooSimilar` compares: the
distance `sqrt(n)` is kept as `100·n`, a hundred times its square, and a
threshold `t ≥ 0` as `100·t²`; comparing these compares the values. -/
def squaredHundredths (n : Nat) : Nat := 100 * n

/-- The comparison `<=` on the stand-ins of `squaredHundredths`. -/
def leSquared (x y : Nat) : Bool := decide (x ≤ y)

/-- The parser of `TEST_CASE("SixelParser.rewind")` just before its `$`: on the
4x6 image of default colour (0, 0, 0, 0xFF), four sixels `~` are painted in
colour 1 (yellow), then colour 2 (cyan) is defined, which also selects it. -/
def rewindTestParser : SixelParser :=
  SixelParser.done (fun _ _ _ => {})
    ((SixelParser.create
        (sixelImageBuilder { width := 4, height := 6 } (RGBAColor.ofChannels 0 0 0 255))).parseFragment
      (fun _ _ _ => {}) (ascii "#1;2;100;100;0#1~~~~#2;2;0;100;100"))

/-! ## The image builder: frame and pixels of a write and of a sixel -/

namespace SixelImageBuilder

theorem sameFrame_refl (b : SixelImageBuilder) : SameFrame b b :=
  ⟨rfl, rfl, rfl, rfl, rfl, rfl, rfl⟩

theorem sameFrame_trans {a b c : SixelImageBuilder} (h₁ : SameFrame a b) (h₂ : SameFrame b c) :
    SameFrame a c := by
  obtain ⟨a1, a2, a3, a4, a5, a6, a7⟩ := h₁
  obtain ⟨b1, b2, b3, b4, b5, b6, b7⟩ := h₂
  exact ⟨b1.trans a1, b2.trans a2, b3.trans a3, b4.trans a4, b5.trans a5, b6.trans a6,
    b7.trans a7⟩

theorem sameFrame_inBounds {b c : SixelImageBuilder} (h : SameFrame b c) (pos : CellLocation) :
    c.inBounds pos ↔ b.inBounds pos := by
  unfold inBounds
  rw [h.2.2.2.2.2.2]

theorem sameFrame_currentColorValue {b c : SixelImageBuilder} (h : SameFrame b c) :
    c.currentColorValue = b.currentColorValue := by
  unfold currentColorValue
  rw [h.2.1, h.2.2.2.1]

theorem write_sameFrame (b : SixelImageBuilder) (pos : CellLocation) (c : RGBColor) :
    SameFrame b (b.write pos c) := by
  unfold write
  by_cases h : b.inBounds pos
  · rw [if_pos h]
    refine ⟨rfl, rfl, rfl, rfl, rfl, rfl, ?_⟩
    unfold bounds
    cases he : b.explicitSize <;> simp
  · rw [if_neg h]
    exact sameFrame_refl b

theorem write_buffer (b : SixelImageBuilder) (pos : CellLocation) (c : RGBColor) (r k : Int) :
    (b.write pos c).buffer r k
      = if b.inBounds pos ∧ r = pos.line ∧ k = pos.column then RGBAColor.ofRGB c
        else b.buffer r k := by
  unfold write
  by_cases h : b.inBounds pos
  · simp [h]
  · simp [h]

theorem renderPin_sameFrame (sixel : Nat) (o : CellLocation) (b : SixelImageBuilder) (j : Nat) :
    SameFrame b (renderPin sixel o b j) := by
  unfold renderPin
  split
  · exact write_sameFrame _ _ _
  · exact sameFrame_refl b

theorem renderPin_buffer_hit (sixel : Nat) (o : CellLocation) (b : SixelImageBuilder) (j : Nat)
    (r k : Int) (h : PinHits sixel o b r k j) :
    (renderPin sixel o b j).buffer r k = RGBAColor.ofRGB b.currentColorValue := by
  obtain ⟨h1, h2, h3, h4⟩ := h
  unfold renderPin
  rw [if_pos h1, write_buffer, if_pos ⟨h2, h3, h4⟩]

theorem renderPin_buffer_miss (sixel : Nat) (o : CellLocation) (b : SixelImageBuilder) (j : Nat)
    (r k : Int) (h : ¬ PinHits sixel o b r k j) :
    (renderPin sixel o b j).buffer r k = b.buffer r k := by
  unfold renderPin
  split
  · rename_i hbit
    rw [write_buffer, if_neg]
    rintro ⟨h2, h3, h4⟩
    exact h ⟨hbit, h2, h3, h4⟩
  · rfl

theorem pinHits_congr {b c : SixelImageBuilder} (h : SameFrame b c) (sixel : Nat)
    (o : CellLocation) (r k : Int) (j : Nat) : PinHits sixel o c r k j ↔ PinHits sixel o b r k j := by
  unfold PinHits
  rw [sameFrame_inBounds h]

theorem foldl_renderPin_sameFrame (sixel : Nat) (o : CellLocation) (js : List Nat) :
    ∀ b : SixelImageBuilder, SameFrame b (js.foldl (renderPin sixel o) b) := by
  induction js with
  | nil => intro b; exact sameFrame_refl b
  | cons j js ih =>
    intro b
    rw [List.foldl_cons]
    exact sameFrame_trans (renderPin_sameFrame sixel o b j) (ih _)

theorem foldl_renderPin_buffer (sixel : Nat) (o : CellLocation) (r k : Int) (js : List Nat) :
    ∀ b : SixelImageBuilder,
      ((∃ j ∈ js, PinHits sixel o b r k j) →
          (js.foldl (renderPin sixel o) b).buffer r k = RGBAColor.ofRGB b.currentColorValue)
        ∧ ((¬ ∃ j ∈ js, PinHits sixel o b r k j) →
          (js.foldl (renderPin sixel o) b).buffer r k = b.buffer r k) := by
  induction js with
  | nil =>
    intro b
    constructor
    · rintro ⟨j, hj, _⟩
      simp at hj
    · intro _
      rfl
  | cons j js ih =>
    intro b
    have hf := renderPin_sameFrame sixel o b j
    have hc := sameFrame_currentColorValue hf
    obtain ⟨ih1, ih2⟩ := ih (renderPin sixel o b j)
    rw [List.foldl_cons]
    constructor
    · rintro ⟨i, hi, hhit⟩
      by_cases hrest : ∃ i ∈ js, PinHits sixel o b r k i
      · obtain ⟨i', hi', hhit'⟩ := hrest
        rw [ih1 ⟨i', hi', (pinHits_congr hf sixel o r k i').mpr hhit'⟩, hc]
      · have hij : i = j := by
          rcases List.mem_cons.mp hi with h | h
          · exact h
          · exact absurd ⟨i, h, hhit⟩ hrest
        subst hij
        rw [ih2, renderPin_buffer_hit sixel o b i r k hhit]
        rintro ⟨i', hi', hhit'⟩
        exact hrest ⟨i', hi', (pinHits_congr hf sixel o r k i').mp hhit'⟩
    · intro hno
      rw [ih2, renderPin_buffer_miss]
      · intro hhit
        exact hno ⟨j, List.mem_cons_self j js, hhit⟩
      · rintro ⟨i', hi', hhit'⟩
        exact hno ⟨i', List.mem_cons_of_mem j hi', (pinHits_congr hf sixel o r k i').mp hhit'⟩

theorem render_sixelCursor (b : SixelImageBuilder) (sixel : Nat) :
    (b.render sixel).sixelCursor
      = { line := b.sixelCursor.line, column := b.sixelCursor.column + 1 } := rfl

theorem render_frame (b : SixelImageBuilder) (sixel : Nat) :
    (b.render sixel).maxSize = b.maxSize ∧ (b.render sixel).colors = b.colors
      ∧ (b.render sixel).currentColor = b.currentColor
      ∧ (b.render sixel).explicitSize = b.explicitSize
      ∧ (b.render sixel).aspectRatio = b.aspectRatio ∧ (b.render sixel).bounds = b.bounds := by
  obtain ⟨h1, h2, _, h4, h5, h6, h7⟩ :=
    foldl_renderPin_sameFrame sixel b.sixelCursor [0, 1, 2, 3, 4, 5] b
  refine ⟨h1, h2, h4, h5, h6, ?_⟩
  unfold bounds at h7 ⊢
  unfold render
  simpa using h7

theorem mem_pins (j : Nat) : j ∈ [0, 1, 2, 3, 4, 5] ↔ j < 6 := by
  simp only [List.mem_cons, List.mem_singleton, List.not_mem_nil, or_false]
  omega

theorem render_buffer_hit (b : SixelImageBuilder) (sixel : Nat) (r k : Int) (j : Nat)
    (hj : j < 6) (h : PinHits sixel b.sixelCursor b r k j) :
    (b.render sixel).buffer r k = RGBAColor.ofRGB b.currentColorValue :=
  (foldl_renderPin_buffer sixel b.sixelCursor r k [0, 1, 2, 3, 4, 5] b).1
    ⟨j, (mem_pins j).mpr hj, h⟩

theorem render_buffer_miss (b : SixelImageBuilder) (sixel : Nat) (r k : Int)
    (h : ∀ j, j < 6 → ¬ PinHits sixel b.sixelCursor b r k j) :
    (b.render sixel).buffer r k = b.buffer r k :=
  (foldl_renderPin_buffer sixel b.sixelCursor r k [0, 1, 2, 3, 4, 5] b).2
    (by rintro ⟨j, hj, hhit⟩; exact h j ((mem_pins j).mp hj) hhit)

end SixelImageBuilder


theorem and_255 (x : Nat) : x &&& 255 = x % 256 := by
  have h := Nat.and_pow_two_sub_one_eq_mod x 8
  norm_num at h
  exact h

theorem ofChannels_value (r g b a : Fin 256) :
    (RGBAColor.ofChannels r g b a).value
      = r.val * 16777216 + g.val * 65536 + b.val * 256 + a.val := by
  have hr := r.isLt
  have hg := g.isLt
  have hb := b.isLt
  have ha := a.isLt
  unfold RGBAColor.ofChannels
  simp only [Nat.shiftLeft_eq]
  have h1 : r.val * 2 ^ 24 ||| g.val * 2 ^ 16 = 2 ^ 24 * r.val + g.val * 2 ^ 16 := by
    rw [Nat.mul_comm r.val, Nat.mul_add_lt_is_or (by omega)]
  have h2 : (2 ^ 24 * r.val + g.val * 2 ^ 16) ||| b.val * 2 ^ 8
      = 2 ^ 16 * (2 ^ 8 * r.val + g.val) + b.val * 2 ^ 8 := by
    have e : 2 ^ 24 * r.val + g.val * 2 ^ 16 = 2 ^ 16 * (2 ^ 8 * r.val + g.val) := by omega
    rw [e]
    exact (Nat.mul_add_lt_is_or (by omega) _).symm
  have h3 : (2 ^ 16 * (2 ^ 8 * r.val + g.val) + b.val * 2 ^ 8) ||| a.val
      = 2 ^ 8 * (2 ^ 8 * (2 ^ 8 * r.val + g.val) + b.val) + a.val := by
    have e : 2 ^ 16 * (2 ^ 8 * r.val + g.val) + b.val * 2 ^ 8
        = 2 ^ 8 * (2 ^ 8 * (2 ^ 8 * r.val + g.val) + b.val) := by omega
    rw [e]
    exact (Nat.mul_add_lt_is_or ha _).symm
  rw [h1, h2, h3]
  omega

theorem ofRGB_alpha (c : RGBColor) : (RGBAColor.ofRGB c).alpha = 255 := by
  unfold RGBAColor.alpha RGBAColor.ofRGB toUInt8
  rw [ofChannels_value, and_255]
  apply Fin.ext
  show (_ % 256) % 256 = 255
  have : ((0xFF : Fin 256) : Nat) = 255 := rfl
  omega

theorem ofChannels_rgb (r g b a : Fin 256) :
    (RGBAColor.ofChannels r g b a).rgb = { red := r, green := g, blue := b } := by
  have hr := r.isLt
  have hg := g.isLt
  have hb := b.isLt
  have ha := a.isLt
  unfold RGBAColor.rgb RGBColor.ofUInt32 toUInt8 u32Modulus
  rw [ofChannels_value]
  simp only [Nat.shiftRight_eq_div_pow, and_255]
  congr 1 <;> apply Fin.ext <;> simp only [] <;> omega

theorem ofRGB_rgb (c : RGBColor) : (RGBAColor.ofRGB c).rgb = c := by
  unfold RGBAColor.ofRGB
  rw [ofChannels_rgb]


/-! ## The scenarios of `SixelParser_test.cpp` on the model -/

section Scenarios

set_option maxRecDepth 1000000

/-- Scenario `SixelParser.ground_000000`: `?` changes no pixel, cursor (0, 1). -/
theorem test_ground_000000 :
    ((testParser 4 10 (RGBAColor.ofChannels 0x10 0x20 0x30 0xFF)
        { red := 0xFF, green := 0xFF, blue := 0x42 }).parseFragment (fun _ _ _ => {})
        (ascii "?")).builder.sixelCursor = { line := 0, column := 1 }
      ∧ imageMatches
          ((testParser 4 10 (RGBAColor.ofChannels 0x10 0x20 0x30 0xFF)
            { red := 0xFF, green := 0xFF, blue := 0x42 }).parseFragment (fun _ _ _ => {})
            (ascii "?")).builder
          (fun _ _ => RGBAColor.ofChannels 0x10 0x20 0x30 0xFF) = true := by
  decide

/-- Scenario `SixelParser.ground_111111`: `~` pins rows 0..5 of column 0. -/
theorem test_ground_111111 :
    ((testParser 2 8 (RGBAColor.ofChannels 0 0 0 0xFF)
        { red := 0x10, green := 0x20, blue := 0x40 }).parseFragment (fun _ _ _ => {})
        (ascii "~")).builder.sixelCursor = { line := 0, column := 1 }
      ∧ imageMatches
          ((testParser 2 8 (RGBAColor.ofChannels 0 0 0 0xFF)
            { red := 0x10, green := 0x20, blue := 0x40 }).parseFragment (fun _ _ _ => {})
            (ascii "~")).builder
          (fun y x =>
            if x = 0 ∧ y ≤ 5 then RGBAColor.ofChannels 0x10 0x20 0x40 0xFF
            else RGBAColor.ofChannels 0 0 0 0xFF) = true := by
  decide

/-- Scenario `SixelParser.ground_000001`: `@` pins the pixel (0, 0) only. -/
theorem test_ground_000001 :
    ((testParser 4 10 (RGBAColor.ofChannels 0x10 0x20 0x30 0xFF)
        { red := 0xFF, green := 0xFF, blue := 0x42 }).parseFragment (fun _ _ _ => {})
        (ascii "@")).builder.sixelCursor = { line := 0, column := 1 }
      ∧ imageMatches
          ((testParser 4 10 (RGBAColor.ofChannels 0x10 0x20 0x30 0xFF)
            { red := 0xFF, green := 0xFF, blue := 0x42 }).parseFragment (fun _ _ _ => {})
            (ascii "@")).builder
          (fun y x =>
            if x = 0 ∧ y = 0 then RGBAColor.ofChannels 0xFF 0xFF 0x42 0xFF
            else RGBAColor.ofChannels 0x10 0x20 0x30 0xFF) = true := by
  decide

/-- Scenario `SixelParser.ground_010101`: `T` pins the even rows below 6 of column 0. -/
theorem test_ground_010101 :
    ((testParser 2 8 (RGBAColor.ofChannels 0x10 0x20 0x30 0xFF)
        { red := 0xFF, green := 0xFF, blue := 0x42 }).parseFragment (fun _ _ _ => {})
        (ascii "T")).builder.sixelCursor = { line := 0, column := 1 }
      ∧ imageMatches
          ((testParser 2 8 (RGBAColor.ofChannels 0x10 0x20 0x30 0xFF)
            { red := 0xFF, green := 0xFF, blue := 0x42 }).parseFragment (fun _ _ _ => {})
            (ascii "T")).builder
          (fun y x =>
            if x = 0 ∧ y < 6 ∧ y % 2 = 0 then RGBAColor.ofChannels 0xFF 0xFF 0x42 0xFF
            else RGBAColor.ofChannels 0x10 0x20 0x30 0xFF) = true := by
  decide

/-- Scenario `SixelParser.ground_101010`: `i` pins the odd rows below 6 of column 0. -/
theorem test_ground_101010 :
    ((testParser 2 8 (RGBAColor.ofChannels 0x10 0x20 0x30 0xFF)
        { red := 0xFF, green := 0xFF, blue := 0x42 }).parseFragment (fun _ _ _ => {})
        (ascii "i")).builder.sixelCursor = { line := 0, column := 1 }
      ∧ imageMatches
          ((testParser 2 8 (RGBAColor.ofChannels 0x10 0x20 0x30 0xFF)
            { red := 0xFF, green := 0xFF, blue := 0x42 }).parseFragment (fun _ _ _ => {})
            (ascii "i")).builder
          (fun y x =>
            if x = 0 ∧ y < 6 ∧ y % 2 ≠ 0 then RGBAColor.ofChannels 0xFF 0xFF 0x42 0xFF
            else RGBAColor.ofChannels 0x10 0x20 0x30 0xFF) = true := by
  decide

/-- Scenario `SixelParser.rep`: `!12~` pins a block 12 wide and 6 tall, cursor (0, 12). -/
theorem test_rep :
    ((testParser 14 8 (RGBAColor.ofChannels 0 0 0 0xFF)
        { red := 0x10, green := 0x20, blue := 0x30 }).parseFragment (fun _ _ _ => {})
        (ascii "!12~")).builder.sixelCursor = { line := 0, column := 12 }
      ∧ imageMatches
          ((testParser 14 8 (RGBAColor.ofChannels 0 0 0 0xFF)
            { red := 0x10, green := 0x20, blue := 0x30 }).parseFragment (fun _ _ _ => {})
            (ascii "!12~")).builder
          (fun y x =>
            if x < 12 ∧ y < 6 then RGBAColor.ofChannels 0x10 0x20 0x30 0xFF
            else RGBAColor.ofChannels 0 0 0 0xFF) = true := by
  decide

/-- Scenario `SixelParser.setAndUseColor`: the five columns get the colours of
palette entries 4, 1, 2, 3, 4; cursor (0, 5). -/
theorem test_setAndUseColor :
    (SixelParser.done (fun _ _ _ => {})
        (colorTestParser.parseFragment (fun _ _ _ => {})
          (ascii "#1;2;100;0;0#2;2;0;100;0#3;2;0;0;100#4;2;100;100;100~#1~#2~#3~#4~"))).builder.sixelCursor
        = { line := 0, column := 5 }
      ∧ imageMatches
          (SixelParser.done (fun _ _ _ => {})
            (colorTestParser.parseFragment (fun _ _ _ => {})
              (ascii "#1;2;100;0;0#2;2;0;100;0#3;2;0;0;100#4;2;100;100;100~#1~#2~#3~#4~"))).builder
          (fun _ x =>
            if x = 1 then RGBAColor.ofChannels 255 0 0 255
            else if x = 2 then RGBAColor.ofChannels 0 255 0 255
            else if x = 3 then RGBAColor.ofChannels 0 0 255 255
            else RGBAColor.ofChannels 255 255 255 255) = true := by
  decide

/-- Scenario `SixelParser.rewind`: columns 0..1 are overwritten with colour 2,
columns 2..3 keep colour 1; cursor (0, 2). -/
theorem test_rewind :
    (SixelParser.done (fun _ _ _ => {})
        ((SixelParser.create
            (sixelImageBuilder { width := 4, height := 6 } (RGBAColor.ofChannels 0 0 0 255))).parseFragment
          (fun _ _ _ => {})
          (ascii "#1;2;100;100;0#2;2;0;100;100#1~~~~$#2~~"))).builder.sixelCursor
        = { line := 0, column := 2 }
      ∧ imageMatches
          (SixelParser.done (fun _ _ _ => {})
            ((SixelParser.create
                (sixelImageBuilder { width := 4, height := 6 }
                  (RGBAColor.ofChannels 0 0 0 255))).parseFragment
              (fun _ _ _ => {})
              (ascii "#1;2;100;100;0#2;2;0;100;100#1~~~~$#2~~"))).builder
          (fun _ x =>
            if x < 2 then RGBAColor.ofChannels 0 255 255 255
            else RGBAColor.ofChannels 255 255 0 255) = true := by
  decide

/-- Scenario `SixelParser.newline`: rows 0..5 of columns 0..3 have colour 1, rows
6..11 colour 2, the rest the default colour; cursor (6, 4). -/
theorem test_newline :
    (SixelParser.done (fun _ _ _ => {})
        ((SixelParser.create
            (sixelImageBuilder { width := 5, height := 13 } (RGBAColor.ofChannels 0 0 0 255))).parseFragment
          (fun _ _ _ => {})
          (ascii "#1;2;100;100;0#2;2;0;100;100#1~~~~-#2~~~~"))).builder.sixelCursor
        = { line := 6, column := 4 }
      ∧ imageMatches
          (SixelParser.done (fun _ _ _ => {})
            ((SixelParser.create
                (sixelImageBuilder { width := 5, height := 13 }
                  (RGBAColor.ofChannels 0 0 0 255))).parseFragment
              (fun _ _ _ => {})
              (ascii "#1;2;100;100;0#2;2;0;100;100#1~~~~-#2~~~~"))).builder
          (fun y x =>
            if y < 6 ∧ x < 4 then RGBAColor.ofChannels 255 255 0 255
            else if y < 12 ∧ x < 4 then RGBAColor.ofChannels 0 255 255 255
            else RGBAColor.ofChannels 0 0 0 255) = true := by
  decide

/-- Scenario `SixelParser.raster`: the raster preambles `12;34;32;24`, `12;34`, the
empty one, `0;0`, `5;0` and `15;2`, each followed by `done()`, on one builder. -/
theorem test_raster :
    let hsl : Nat → Nat → Nat → RGBColor := fun _ _ _ => {}
    let p1 := SixelParser.done hsl (rasterTestParser.parseFragment hsl (0x22 :: ascii "12;34;32;24"))
    let p2 := SixelParser.done hsl (p1.parseFragment hsl (0x22 :: ascii "12;34"))
    let p3 := SixelParser.done hsl (p2.parseFragment hsl [0x22])
    let p4 := SixelParser.done hsl (p3.parseFragment hsl (0x22 :: ascii "0;0"))
    let p5 := SixelParser.done hsl (p4.parseFragment hsl (0x22 :: ascii "5;0"))
    let p6 := SixelParser.done hsl (p5.parseFragment hsl (0x22 :: ascii "15;2"))
    (p1.builder.sixelCursor = {} ∧ p1.builder.aspectRatio = 1
        ∧ p1.builder.size = { width := 32, height := 24 })
      ∧ (p2.builder.sixelCursor = {} ∧ p2.builder.aspectRatio = 1)
      ∧ (p3.builder.sixelCursor = {} ∧ p3.builder.aspectRatio = 1)
      ∧ (p4.builder.sixelCursor = {} ∧ p4.builder.aspectRatio = 1)
      ∧ (p5.builder.sixelCursor = {} ∧ p5.builder.aspectRatio = 1)
      ∧ (p6.builder.sixelCursor = {} ∧ p6.builder.aspectRatio = 8) := by
  decide

/-- Scenario `SixelParser.vertical_cursor_advance`: on a fresh 5x30 builder without
raster, `$-$-$-$-` and `done()` give size (1, 24) and the cursor (24, 0). -/
theorem test_vertical_cursor_advance :
    (SixelParser.done (fun _ _ _ => {})
        ((SixelParser.create
            (SixelImageBuilder.create { width := 5, height := 30 } 1 1 (RGBAColor.ofChannels 0 0 0 255)
              (SixelColorPalette.create 16 256))).parseFragment
          (fun _ _ _ => {}) (ascii "$-$-$-$-"))).builder.size
        = { width := 1, height := 24 }
      ∧ (SixelParser.done (fun _ _ _ => {})
          ((SixelParser.create
              (SixelImageBuilder.create { width := 5, height := 30 } 1 1
                (RGBAColor.ofChannels 0 0 0 255) (SixelColorPalette.create 16 256))).parseFragment
            (fun _ _ _ => {}) (ascii "$-$-$-$-"))).builder.sixelCursor
        = { line := 24, column := 0 } := by
  decide

end Scenarios


namespace SixelParser

theorem parse_sixel_in_ground (hsl2rgb : Nat → Nat → Nat → RGBColor) (p : SixelParser) (byte : Nat)
    (hg : p.state = State.Ground) (hb : isSixel byte) :
    p.parse hsl2rgb byte
      = { state := State.Ground, params := [], builder := p.builder.render (byte - 0x3F) } := by
  unfold parse ground
  rw [hg]
  simp only [if_pos hb]

theorem parse_newline_in_ground (hsl2rgb : Nat → Nat → Nat → RGBColor) (p : SixelParser)
    (hg : p.state = State.Ground) :
    p.parse hsl2rgb 0x2D
      = { state := State.Ground, params := [], builder := p.builder.newline } := by
  unfold parse ground
  rw [hg]
  simp [isSixel]

theorem parse_rewind_in_ground (hsl2rgb : Nat → Nat → Nat → RGBColor) (p : SixelParser)
    (hg : p.state = State.Ground) :
    p.parse hsl2rgb 0x24
      = { state := State.Ground, params := [], builder := p.builder.rewind } := by
  unfold parse ground
  rw [hg]
  simp [isSixel]

end SixelParser

namespace SixelImageBuilder

theorem newline_bounds (b : SixelImageBuilder) : b.newline.bounds = b.bounds := by
  unfold newline bounds
  cases h : b.explicitSize <;> simp

/-- The pixels of a sixel plotted at cursor (`l`, `c`): the pins that are set
and inside the image get the current colour, every pixel outside the six rows
of the cursor column keeps its value. -/
theorem render_pixels (b : SixelImageBuilder) (sixel : Nat) :
    (∀ j : Nat, j < 6 →
        b.inBounds { line := b.sixelCursor.line + (j : Int), column := b.sixelCursor.column } →
        (b.render sixel).pixelAt
            { line := b.sixelCursor.line + (j : Int), column := b.sixelCursor.column }
          = if sixel.testBit j = true then RGBAColor.ofRGB b.currentColorValue
            else b.pixelAt
              { line := b.sixelCursor.line + (j : Int), column := b.sixelCursor.column })
      ∧ (∀ pos : CellLocation,
          ¬ (pos.column = b.sixelCursor.column ∧ b.sixelCursor.line ≤ pos.line
              ∧ pos.line < b.sixelCursor.line + 6) →
          (b.render sixel).pixelAt pos = b.pixelAt pos) := by
  constructor
  · intro j hj hin
    unfold pixelAt
    by_cases hbit : sixel.testBit j = true
    · rw [if_pos hbit]
      exact render_buffer_hit b sixel _ _ j hj ⟨hbit, hin, rfl, rfl⟩
    · rw [if_neg hbit]
      apply render_buffer_miss
      rintro i _ ⟨hi, _, hrow, _⟩
      have hij : i = j := by
        simp only at hrow
        omega
      subst hij
      exact hbit hi
  · intro pos hpos
    unfold pixelAt
    apply render_buffer_miss
    rintro i hi ⟨_, _, hrow, hcol⟩
    apply hpos
    refine ⟨hcol, ?_, ?_⟩ <;> omega

end SixelImageBuilder

/-- C1: a sixel byte `0x3F..0x7E` parsed in Ground with the cursor at (L, C), C a
column of the image: each pixel (L+k, C), k in 0..5, of the image becomes the
selected palette colour with alpha 255 when bit k of `byte - 0x3F` is set and
keeps its value otherwise; every other pixel is unchanged; the cursor becomes
(L, C+1). -/
theorem sixel_byte_renders (hsl2rgb : Nat → Nat → Nat → RGBColor) (p : SixelParser) (byte : Nat)
    (hg : p.state = State.Ground) (hb : isSixel byte)
    (hc : 0 ≤ p.builder.sixelCursor.column
      ∧ p.builder.sixelCursor.column < (p.builder.bounds.width : Int)) :
    (p.parse hsl2rgb byte).state = State.Ground
      ∧ (p.parse hsl2rgb byte).builder.sixelCursor
          = { line := p.builder.sixelCursor.line, column := p.builder.sixelCursor.column + 1 }
      ∧ (∀ k : Nat, k < 6 → 0 ≤ p.builder.sixelCursor.line + (k : Int) →
          p.builder.sixelCursor.line + (k : Int) < (p.builder.bounds.height : Int) →
          (p.parse hsl2rgb byte).builder.pixelAt
              { line := p.builder.sixelCursor.line + (k : Int)
                column := p.builder.sixelCursor.column }
            = if (byte - 0x3F).testBit k = true then
                RGBAColor.ofRGB p.builder.currentColorValue
              else p.builder.pixelAt
                { line := p.builder.sixelCursor.line + (k : Int)
                  column := p.builder.sixelCursor.column })
      ∧ (∀ pos : CellLocation,
          ¬ (pos.column = p.builder.sixelCursor.column ∧ p.builder.sixelCursor.line ≤ pos.line
              ∧ pos.line < p.builder.sixelCursor.line + 6) →
          (p.parse hsl2rgb byte).builder.pixelAt pos = p.builder.pixelAt pos)
      ∧ (RGBAColor.ofRGB p.builder.currentColorValue).alpha = 255
      ∧ (RGBAColor.ofRGB p.builder.currentColorValue).rgb = p.builder.currentColorValue := by
  rw [SixelParser.parse_sixel_in_ground hsl2rgb p byte hg hb]
  obtain ⟨h1, h2⟩ := SixelImageBuilder.render_pixels p.builder (byte - 0x3F)
  refine ⟨rfl, rfl, ?_, h2, ofRGB_alpha _, ofRGB_rgb _⟩
  intro k hk h0 hh
  exact h1 k hk ⟨h0, hh, hc.1, hc.2⟩

/-- Witness of C1 on the parser of `SixelParser.ground_010101`: the byte `T`. -/
theorem sixel_byte_renders_witness :
    isSixel 0x54
      ∧ (groundTestParser.parse (fun _ _ _ => {}) 0x54).builder.sixelCursor
          = { line := 0, column := 1 } :=
  ⟨by decide,
    (sixel_byte_renders (fun _ _ _ => {}) groundTestParser 0x54 rfl (by decide)
      (by decide)).2.1⟩

/-- C3: `-` parsed in Ground with the cursor at (L, C) moves the cursor to (L+6, 0)
and changes no pixel; a sixel rendered next paints its set pins in rows
L+6..L+11 of column 0 and changes no pixel outside those rows. -/
theorem newline_moves_cursor (hsl2rgb : Nat → Nat → Nat → RGBColor) (p : SixelParser)
    (hg : p.state = State.Ground) :
    (p.parse hsl2rgb 0x2D).state = State.Ground
      ∧ (p.parse hsl2rgb 0x2D).builder.sixelCursor
          = { line := p.builder.sixelCursor.line + 6, column := 0 }
      ∧ (∀ pos : CellLocation,
          (p.parse hsl2rgb 0x2D).builder.pixelAt pos = p.builder.pixelAt pos)
      ∧ ∀ byte : Nat, isSixel byte →
          (∀ k : Nat, k < 6 → (byte - 0x3F).testBit k = true →
            p.builder.inBounds { line := p.builder.sixelCursor.line + 6 + (k : Int), column := 0 } →
            ((p.parse hsl2rgb 0x2D).parse hsl2rgb byte).builder.pixelAt
                { line := p.builder.sixelCursor.line + 6 + (k : Int), column := 0 }
              = RGBAColor.ofRGB p.builder.currentColorValue)
          ∧ (∀ pos : CellLocation,
              ¬ (pos.column = 0 ∧ p.builder.sixelCursor.line + 6 ≤ pos.line
                  ∧ pos.line < p.builder.sixelCursor.line + 12) →
              ((p.parse hsl2rgb 0x2D).parse hsl2rgb byte).builder.pixelAt pos
                = p.builder.pixelAt pos) := by
  rw [SixelParser.parse_newline_in_ground hsl2rgb p hg]
  refine ⟨rfl, rfl, fun _ => rfl, ?_⟩
  intro byte hb
  rw [SixelParser.parse_sixel_in_ground hsl2rgb _ byte rfl hb]
  obtain ⟨h1, h2⟩ := SixelImageBuilder.render_pixels p.builder.newline (byte - 0x3F)
  constructor
  · intro k hk hbit hin
    have hin' : p.builder.newline.inBounds
        { line := p.builder.newline.sixelCursor.line + (k : Int)
          column := p.builder.newline.sixelCursor.column } := by
      unfold SixelImageBuilder.inBounds at hin ⊢
      rw [SixelImageBuilder.newline_bounds]
      exact hin
    have h := h1 k hk hin'
    rw [if_pos hbit] at h
    exact h
  · intro pos hpos
    have h := h2 pos (by
      intro hh
      apply hpos
      obtain ⟨a, b, c⟩ := hh
      have e1 : p.builder.newline.sixelCursor.column = 0 := rfl
      have e2 : p.builder.newline.sixelCursor.line = p.builder.sixelCursor.line + 6 := rfl
      rw [e1] at a
      rw [e2] at b c
      exact ⟨a, b, by omega⟩)
    exact h

/-- Witness of C3 on the parser of `SixelParser.ground_010101`. -/
theorem newline_moves_cursor_witness :
    (groundTestParser.parse (fun _ _ _ => {}) 0x2D).builder.sixelCursor
      = { line := 6, column := 0 } :=
  (newline_moves_cursor (fun _ _ _ => {}) groundTestParser rfl).2.1

/-- C4: `$` parsed in Ground with the cursor at (L, C) moves the cursor to (L, 0)
and changes no pixel; a sixel rendered next overwrites the pixels of its set
pins in column 0 of the same band and leaves every pixel outside that column
of the band as it was. -/
theorem rewind_moves_cursor (hsl2rgb : Nat → Nat → Nat → RGBColor) (p : SixelParser)
    (hg : p.state = State.Ground) :
    (p.parse hsl2rgb 0x24).state = State.Ground
      ∧ (p.parse hsl2rgb 0x24).builder.sixelCursor
          = { line := p.builder.sixelCursor.line, column := 0 }
      ∧ (∀ pos : CellLocation,
          (p.parse hsl2rgb 0x24).builder.pixelAt pos = p.builder.pixelAt pos)
      ∧ ∀ byte : Nat, isSixel byte →
          (∀ k : Nat, k < 6 → (byte - 0x3F).testBit k = true →
            p.builder.inBounds { line := p.builder.sixelCursor.line + (k : Int), column := 0 } →
            ((p.parse hsl2rgb 0x24).parse hsl2rgb byte).builder.pixelAt
                { line := p.builder.sixelCursor.line + (k : Int), column := 0 }
              = RGBAColor.ofRGB p.builder.currentColorValue)
          ∧ (∀ pos : CellLocation,
              ¬ (pos.column = 0 ∧ p.builder.sixelCursor.line ≤ pos.line
                  ∧ pos.line < p.builder.sixelCursor.line + 6) →
              ((p.parse hsl2rgb 0x24).parse hsl2rgb byte).builder.pixelAt pos
                = p.builder.pixelAt pos) := by
  rw [SixelParser.parse_rewind_in_ground hsl2rgb p hg]
  refine ⟨rfl, rfl, fun _ => rfl, ?_⟩
  intro byte hb
  rw [SixelParser.parse_sixel_in_ground hsl2rgb _ byte rfl hb]
  obtain ⟨h1, h2⟩ := SixelImageBuilder.render_pixels p.builder.rewind (byte - 0x3F)
  constructor
  · intro k hk hbit hin
    have h := h1 k hk hin
    rw [if_pos hbit] at h
    exact h
  · intro pos hpos
    exact h2 pos hpos

section RewindWitness

set_option maxRecDepth 1000000

/-- Witness of C4 on the parser of `SixelParser.rewind` just before its `$`: the
cursor stands at column 4 and the pixel (0, 0) is yellow; `$` moves the cursor
to column 0, and the `~` parsed next paints the pixel (0, 0) with the current
colour, cyan, and leaves the pixel (0, 1) yellow. -/
theorem rewind_moves_cursor_witness :
    (rewindTestParser.builder.sixelCursor = { line := 0, column := 4 }
        ∧ rewindTestParser.builder.pixelAt { line := 0, column := 0 }
          = RGBAColor.ofChannels 255 255 0 255
        ∧ RGBAColor.ofRGB rewindTestParser.builder.currentColorValue
          = RGBAColor.ofChannels 0 255 255 255)
      ∧ (rewindTestParser.parse (fun _ _ _ => {}) 0x24).builder.sixelCursor
        = { line := 0, column := 0 }
      ∧ ((rewindTestParser.parse (fun _ _ _ => {}) 0x24).parse (fun _ _ _ => {}) 0x7E).builder.pixelAt
          { line := 0, column := 0 }
        = RGBAColor.ofRGB rewindTestParser.builder.currentColorValue
      ∧ ((rewindTestParser.parse (fun _ _ _ => {}) 0x24).parse (fun _ _ _ => {}) 0x7E).builder.pixelAt
          { line := 0, column := 1 }
        = rewindTestParser.builder.pixelAt { line := 0, column := 1 } :=
  ⟨by decide,
    (rewind_moves_cursor (fun _ _ _ => {}) rewindTestParser rfl).2.1,
    ((rewind_moves_cursor (fun _ _ _ => {}) rewindTestParser rfl).2.2.2 0x7E (by decide)).1 0
      (by decide) (by decide) (by decide),
    ((rewind_moves_cursor (fun _ _ _ => {}) rewindTestParser rfl).2.2.2 0x7E (by decide)).2
      { line := 0, column := 1 } (by decide)⟩

end RewindWitness


/-! ## Parameters -/

theorem appendDigit_snoc (ps : List Nat) (a d : Nat) :
    appendDigit (ps ++ [a]) d = ps ++ [min (a * 10 + d) maxParam] := by
  induction ps with
  | nil => rfl
  | cons p ps ih =>
    cases ps with
    | nil => rfl
    | cons q qs =>
      show p :: appendDigit ((q :: qs) ++ [a]) d = _
      rw [ih]
      rfl

theorem foldl_appendDigit_snoc (ds : List Nat) :
    ∀ (ps : List Nat) (a : Nat), ds.foldl appendDigit (ps ++ [a]) = ps ++ [accumulate a ds] := by
  induction ds with
  | nil => intro ps a; rfl
  | cons d ds ih =>
    intro ps a
    rw [List.foldl_cons, appendDigit_snoc, ih]
    rfl

theorem foldl_appendDigit_nil (d : Nat) (ds : List Nat) :
    (d :: ds).foldl appendDigit [] = [accumulate 0 (d :: ds)] := by
  rw [List.foldl_cons]
  have h : appendDigit [] d = [] ++ [min (0 * 10 + d) maxParam] := by
    simp [appendDigit]
  rw [h, foldl_appendDigit_snoc]
  rfl

theorem accumulate_reverse_digits (l : List Nat) :
    accumulate 0 l.reverse = min (Nat.ofDigits 10 l) maxParam := by
  induction l with
  | nil => simp [accumulate, maxParam]
  | cons d l ih =>
    unfold accumulate at ih ⊢
    rw [List.reverse_cons, List.foldl_append, ih, Nat.ofDigits_cons]
    simp only [List.foldl_cons, List.foldl_nil, maxParam]
    omega

theorem accumulate_decimalDigits (n : Nat) : accumulate 0 (decimalDigits n) = min n maxParam := by
  unfold decimalDigits
  split
  · rename_i h
    subst h
    simp [accumulate, maxParam]
  · rw [accumulate_reverse_digits, Nat.ofDigits_digits]

theorem decimalDigits_lt (n d : Nat) (h : d ∈ decimalDigits n) : d < 10 := by
  unfold decimalDigits at h
  split at h
  · simp at h
    omega
  · exact Nat.digits_lt_base (by decide) (List.mem_reverse.mp h)

theorem decimalDigits_ne_nil (n : Nat) : decimalDigits n ≠ [] := by
  unfold decimalDigits
  split
  · simp
  · rename_i h
    simp only [ne_eq, List.reverse_eq_nil_iff]
    exact fun hd => h (Nat.digits_eq_nil_iff_eq_zero.mp hd)

theorem decimal_eq (n : Nat) : decimal n = (decimalDigits n).map (fun d => 0x30 + d) := by
  unfold decimal decimalDigits
  split <;> simp

namespace SixelParser

theorem parseFragment_concat (hsl2rgb : Nat → Nat → Nat → RGBColor) (p : SixelParser)
    (s1 s2 : List Nat) :
    parseFragment hsl2rgb p (s1 ++ s2) = parseFragment hsl2rgb (parseFragment hsl2rgb p s1) s2 := by
  unfold parseFragment
  rw [List.foldl_append]

theorem parseFragment_cons (hsl2rgb : Nat → Nat → Nat → RGBColor) (p : SixelParser)
    (x : Nat) (xs : List Nat) :
    parseFragment hsl2rgb p (x :: xs) = parseFragment hsl2rgb (p.parse hsl2rgb x) xs := rfl

theorem parseFragment_nil (hsl2rgb : Nat → Nat → Nat → RGBColor) (p : SixelParser) :
    parseFragment hsl2rgb p [] = p := rfl

theorem parse_digit (hsl2rgb : Nat → Nat → Nat → RGBColor) (p : SixelParser) (d : Nat)
    (hs : p.state ≠ State.Ground) (hd : d < 10) :
    p.parse hsl2rgb (0x30 + d) = { p with params := appendDigit p.params d } := by
  have hdig : isDigit (0x30 + d) := by unfold isDigit; omega
  have hsub : 0x30 + d - 0x30 = d := by omega
  unfold parse
  cases hst : p.state with
  | Ground => exact absurd hst hs
  | RasterSettings => simp only [if_pos hdig, hsub]
  | ColorIntroducer => simp only [if_pos hdig, hsub]
  | RepeatIntroducer => simp only [if_pos hdig, hsub]

theorem parse_digits (hsl2rgb : Nat → Nat → Nat → RGBColor) (ds : List Nat) :
    ∀ p : SixelParser, p.state ≠ State.Ground → (∀ d ∈ ds, d < 10) →
      parseFragment hsl2rgb p (ds.map (fun d => 0x30 + d))
        = { p with params := ds.foldl appendDigit p.params } := by
  induction ds with
  | nil => intro p _ _; rfl
  | cons d ds ih =>
    intro p hs hd
    rw [List.map_cons, parseFragment_cons,
      parse_digit hsl2rgb p d hs (hd d (List.mem_cons_self d ds))]
    exact ih { p with params := appendDigit p.params d } hs
      (fun x hx => hd x (List.mem_cons_of_mem d hx))

theorem parse_decimal_nil (hsl2rgb : Nat → Nat → Nat → RGBColor) (p : SixelParser) (n : Nat)
    (hs : p.state ≠ State.Ground) (hp : p.params = []) :
    parseFragment hsl2rgb p (decimal n) = { p with params := [min n maxParam] } := by
  rw [decimal_eq, parse_digits hsl2rgb _ p hs (decimalDigits_lt n), hp]
  obtain ⟨d, ds, hds⟩ := List.exists_cons_of_ne_nil (decimalDigits_ne_nil n)
  rw [hds, foldl_appendDigit_nil, ← hds, accumulate_decimalDigits]

theorem parse_decimal_snoc (hsl2rgb : Nat → Nat → Nat → RGBColor) (p : SixelParser) (n : Nat)
    (qs : List Nat) (hs : p.state ≠ State.Ground) (hp : p.params = qs ++ [0]) :
    parseFragment hsl2rgb p (decimal n) = { p with params := qs ++ [min n maxParam] } := by
  rw [decimal_eq, parse_digits hsl2rgb _ p hs (decimalDigits_lt n), hp, foldl_appendDigit_snoc,
    accumulate_decimalDigits]

end SixelParser


/-! ## Colour distance -/

theorem u32Sub_cast (a b : Nat) :
    ((u32Sub a b : Nat) : ZMod u32Modulus) = (a : ZMod u32Modulus) - (b : ZMod u32Modulus) := by
  have hb : b % u32Modulus ≤ u32Modulus := (Nat.mod_lt b (by decide)).le
  unfold u32Sub
  rw [ZMod.natCast_mod, Nat.cast_add, Nat.cast_sub hb, ZMod.natCast_mod, ZMod.natCast_mod,
    ZMod.natCast_self]
  ring

theorem u32Mul_chain (k r : Nat) : u32Mul (u32Mul k r) r = (k * r * r) % u32Modulus := by
  unfold u32Mul
  rw [Nat.mul_mod, Nat.mod_mod, ← Nat.mul_mod]

theorem u32Mul_sq_symm (k a b : Nat) :
    u32Mul (u32Mul k (u32Sub a b)) (u32Sub a b) = u32Mul (u32Mul k (u32Sub b a)) (u32Sub b a) := by
  rw [u32Mul_chain, u32Mul_chain, ← ZMod.natCast_eq_natCast_iff']
  push_cast
  rw [u32Sub_cast, u32Sub_cast]
  ring

theorem distanceRadicand_symm (a b : RGBColor) : distanceRadicand a b = distanceRadicand b a := by
  unfold distanceRadicand
  simp only
  rw [u32Mul_sq_symm _ a.red.val b.red.val, u32Mul_sq_symm 4 a.green.val b.green.val,
    u32Mul_sq_symm _ a.blue.val b.blue.val]
  have h : u32Add a.red.val b.red.val = u32Add b.red.val a.red.val := by
    unfold u32Add; rw [Nat.add_comm]
  rw [h]

/-- C10: `distance` is symmetric, `distance(a, b) == distance(b, a)` for all RGB
colours, whatever `sqrt` computes, although the channel differences are wrapping
32-bit unsigned subtractions. -/
theorem distance_symmetric {α : Type} (sqrt : Nat → α) (a b : RGBColor) :
    distance sqrt a b = distance sqrt b a := by
  unfold distance
  rw [distanceRadicand_symm]

/-- C9: fragment boundaries are unobservable: feeding `s1` and then `s2` leaves the
same parser and builder as feeding `s1 ++ s2` in one call. -/
theorem parseFragment_append (hsl2rgb : Nat → Nat → Nat → RGBColor) (p : SixelParser)
    (s1 s2 : List Nat) :
    SixelParser.parseFragment hsl2rgb (SixelParser.parseFragment hsl2rgb p s1) s2
      = SixelParser.parseFragment hsl2rgb p (s1 ++ s2) := by
  unfold SixelParser.parseFragment
  rw [List.foldl_append]


/-! ## Repeat -/

namespace SixelImageBuilder

theorem iterate_render_sixelCursor (sixel : Nat) (m : Nat) :
    ∀ b : SixelImageBuilder,
      ((fun x : SixelImageBuilder => x.render sixel)^[m] b).sixelCursor
        = { line := b.sixelCursor.line, column := b.sixelCursor.column + (m : Int) } := by
  induction m with
  | zero => intro b; simp
  | succ m ih =>
    intro b
    rw [Function.iterate_succ_apply, ih, render_sixelCursor]
    simp only [CellLocation.mk.injEq, true_and]
    push_cast
    omega

end SixelImageBuilder

namespace SixelParser

theorem parse_repeat (hsl2rgb : Nat → Nat → Nat → RGBColor) (p : SixelParser) (n byte : Nat)
    (hg : p.state = State.Ground) (hb : isSixel byte) :
    parseFragment hsl2rgb p (0x21 :: decimal n ++ [byte])
      = { state := State.Ground
          params := []
          builder := p.builder.renderRepeated (min n maxParam) (byte - 0x3F) } := by
  have h1 : p.parse hsl2rgb 0x21
      = { state := State.RepeatIntroducer, params := [], builder := p.builder } := by
    unfold parse ground
    rw [hg]
    simp [isSixel]
  have hnd : ¬ isDigit byte := by
    unfold isSixel at hb
    unfold isDigit
    omega
  rw [List.cons_append, parseFragment_cons, h1, parseFragment_concat,
    parse_decimal_nil hsl2rgb _ n (by simp) rfl, parseFragment_cons, parseFragment_nil]
  unfold parse
  simp only [if_neg hnd, if_pos hb, List.getD_cons_zero]

theorem parse_replicate (hsl2rgb : Nat → Nat → Nat → RGBColor) (byte : Nat) (hb : isSixel byte)
    (n : Nat) :
    ∀ p : SixelParser, p.state = State.Ground →
      parseFragment hsl2rgb p (List.replicate (n + 1) byte)
        = { state := State.Ground
            params := []
            builder := (fun x : SixelImageBuilder => x.render (byte - 0x3F))^[n + 1] p.builder } := by
  induction n with
  | zero =>
    intro p hg
    rw [List.replicate_succ, parseFragment_cons, parse_sixel_in_ground hsl2rgb p byte hg hb]
    rfl
  | succ n ih =>
    intro p hg
    rw [List.replicate_succ, parseFragment_cons, parse_sixel_in_ground hsl2rgb p byte hg hb,
      ih _ rfl]
    rfl

end SixelParser

/-- C2 (amended): for every repeat count `n` in `1..65535` and every sixel byte,
parsing `!n<byte>` from Ground leaves exactly the same parser and builder as
parsing the byte `n` times in a row. -/
theorem repeat_eq_replicate (hsl2rgb : Nat → Nat → Nat → RGBColor) (p : SixelParser)
    (n byte : Nat) (hg : p.state = State.Ground) (hb : isSixel byte) (h1 : 1 ≤ n)
    (hn : n ≤ 65535) :
    SixelParser.parseFragment hsl2rgb p (0x21 :: decimal n ++ [byte])
      = SixelParser.parseFragment hsl2rgb p (List.replicate n byte) := by
  obtain ⟨m, rfl⟩ : ∃ m, n = m + 1 := ⟨n - 1, by omega⟩
  rw [SixelParser.parse_repeat hsl2rgb p _ byte hg hb,
    SixelParser.parse_replicate hsl2rgb byte hb m p hg]
  have hmin : min (m + 1) maxParam = m + 1 := by
    unfold maxParam
    omega
  rw [hmin]
  unfold SixelImageBuilder.renderRepeated
  rw [if_neg (by omega)]

/-- Witness of the amended C2: `!12~` on the parser of `SixelParser.ground_010101`. -/
theorem repeat_eq_replicate_witness :
    SixelParser.parseFragment (fun _ _ _ => {}) groundTestParser (0x21 :: decimal 12 ++ [0x7E])
      = SixelParser.parseFragment (fun _ _ _ => {}) groundTestParser (List.replicate 12 0x7E) :=
  repeat_eq_replicate (fun _ _ _ => {}) groundTestParser 12 0x7E rfl (by decide) (by decide)
    (by decide)

/-- C2 as stated fails beyond the largest parameter: `!65536?` advances the cursor
by 65535 columns, `?` parsed 65536 times advances it by 65536. -/
theorem repeat_65536_differs :
    (SixelParser.parseFragment (fun _ _ _ => {}) groundTestParser
        (0x21 :: decimal 65536 ++ [0x3F])).builder.sixelCursor = { line := 0, column := 65535 }
      ∧ (SixelParser.parseFragment (fun _ _ _ => {}) groundTestParser
          (List.replicate 65536 0x3F)).builder.sixelCursor = { line := 0, column := 65536 } := by
  constructor
  · rw [SixelParser.parse_repeat _ groundTestParser 65536 0x3F rfl (by decide)]
    have hmin : min 65536 maxParam = 65535 := by
      unfold maxParam
      omega
    simp only [hmin]
    unfold SixelImageBuilder.renderRepeated
    rw [if_neg (by omega), SixelImageBuilder.iterate_render_sixelCursor]
    rfl
  · rw [SixelParser.parse_replicate _ 0x3F (by decide) 65535 groundTestParser rfl]
    simp only []
    rw [SixelImageBuilder.iterate_render_sixelCursor]
    rfl


/-! ## Raster preamble -/

theorem nextParam_snoc (qs : List Nat) (a : Nat) : nextParam (qs ++ [a]) = (qs ++ [a]) ++ [0] := by
  cases qs <;> rfl

namespace SixelParser

theorem parse_semicolon (hsl2rgb : Nat → Nat → Nat → RGBColor) (p : SixelParser)
    (hs : p.state = State.RasterSettings ∨ p.state = State.ColorIntroducer) :
    p.parse hsl2rgb 0x3B = { p with params := nextParam p.params } := by
  unfold parse
  rcases hs with h | h <;> rw [h] <;> simp [isDigit]

theorem parse_params_snoc (hsl2rgb : Nat → Nat → Nat → RGBColor) (ns : List Nat) :
    ∀ (n : Nat) (p : SixelParser) (qs : List Nat),
      p.state = State.RasterSettings ∨ p.state = State.ColorIntroducer →
      p.params = qs ++ [0] →
      parseFragment hsl2rgb p (paramBytes (n :: ns))
        = { p with params := qs ++ (n :: ns).map (fun x => min x maxParam) } := by
  induction ns with
  | nil =>
    intro n p qs hs hp
    have hne : p.state ≠ State.Ground := by rcases hs with h | h <;> rw [h] <;> simp
    exact parse_decimal_snoc hsl2rgb p n qs hne hp
  | cons m ns ih =>
    intro n p qs hs hp
    have hne : p.state ≠ State.Ground := by rcases hs with h | h <;> rw [h] <;> simp
    show parseFragment hsl2rgb p (decimal n ++ 0x3B :: paramBytes (m :: ns)) = _
    rw [parseFragment_concat, parse_decimal_snoc hsl2rgb p n qs hne hp, parseFragment_cons,
      parse_semicolon hsl2rgb { p with params := qs ++ [min n maxParam] } hs]
    simp only []
    rw [nextParam_snoc,
      ih m { p with params := qs ++ [min n maxParam] ++ [0] } (qs ++ [min n maxParam]) hs rfl]
    simp

theorem parse_params (hsl2rgb : Nat → Nat → Nat → RGBColor) (n : Nat) (ns : List Nat)
    (p : SixelParser) (hs : p.state = State.RasterSettings ∨ p.state = State.ColorIntroducer)
    (hp : p.params = []) :
    parseFragment hsl2rgb p (paramBytes (n :: ns))
      = { p with params := (n :: ns).map (fun x => min x maxParam) } := by
  have hne : p.state ≠ State.Ground := by rcases hs with h | h <;> rw [h] <;> simp
  cases ns with
  | nil => exact parse_decimal_nil hsl2rgb p n hne hp
  | cons m ns =>
    show parseFragment hsl2rgb p (decimal n ++ 0x3B :: paramBytes (m :: ns)) = _
    rw [parseFragment_concat, parse_decimal_nil hsl2rgb p n hne hp, parseFragment_cons,
      parse_semicolon hsl2rgb { p with params := [min n maxParam] } hs]
    simp only []
    rw [show nextParam [min n maxParam] = [min n maxParam] ++ [0] from rfl,
      parse_params_snoc hsl2rgb ns m { p with params := [min n maxParam] ++ [0] }
        [min n maxParam] hs rfl]
    simp

theorem parse_raster (hsl2rgb : Nat → Nat → Nat → RGBColor) (p : SixelParser)
    (hg : p.state = State.Ground) (n : Nat) (ns : List Nat) :
    done hsl2rgb (parseFragment hsl2rgb p (0x22 :: paramBytes (n :: ns)))
      = { state := State.Ground
          params := []
          builder := rasterCommand ((n :: ns).map (fun x => min x maxParam)) p.builder } := by
  have h1 : p.parse hsl2rgb 0x22
      = { state := State.RasterSettings, params := [], builder := p.builder } := by
    unfold parse ground
    rw [hg]
    simp [isSixel]
  rw [parseFragment_cons, h1, parse_params hsl2rgb n ns _ (Or.inl rfl) rfl]
  rfl

end SixelParser

theorem rasterCommand_size (hsl2rgb : Nat → Nat → Nat → RGBColor) (p : SixelParser)
    (pan pad w h : Nat) (hg : p.state = State.Ground) (hw : 1 ≤ w) (hh : 1 ≤ h) :
    (SixelParser.done hsl2rgb
        (SixelParser.parseFragment hsl2rgb p
          (0x22 :: (decimal pan ++ 0x3B :: (decimal pad ++ 0x3B :: (decimal w
            ++ 0x3B :: decimal h)))))).builder.size
      = { width := min (min w maxParam) p.builder.maxSize.width
          height := min (min h maxParam) p.builder.maxSize.height } := by
  have hr := SixelParser.parse_raster hsl2rgb p hg pan [pad, w, h]
  have e : paramBytes [pan, pad, w, h]
      = decimal pan ++ 0x3B :: (decimal pad ++ 0x3B :: (decimal w ++ 0x3B :: decimal h)) := rfl
  rw [e] at hr
  rw [hr]
  have hw0 : min w maxParam ≠ 0 := by unfold maxParam; omega
  have hh0 : min h maxParam ≠ 0 := by unfold maxParam; omega
  simp [SixelParser.rasterCommand, SixelImageBuilder.setRaster, hw0, hh0]

/-- C7 (amended): for every raster preamble `"Pan;Pad;W;H` with W and H in
`1..65535`, parsing it from Ground and calling `done()` makes the size
(min(W, maxWidth), min(H, maxHeight)) and leaves the sixel cursor where it was. -/
theorem raster_size (hsl2rgb : Nat → Nat → Nat → RGBColor) (p : SixelParser)
    (pan pad w h : Nat) (hg : p.state = State.Ground) (hw : 1 ≤ w ∧ w ≤ 65535)
    (hh : 1 ≤ h ∧ h ≤ 65535) :
    (SixelParser.done hsl2rgb
        (SixelParser.parseFragment hsl2rgb p
          (0x22 :: (decimal pan ++ 0x3B :: (decimal pad ++ 0x3B :: (decimal w
            ++ 0x3B :: decimal h)))))).builder.size
        = { width := min w p.builder.maxSize.width, height := min h p.builder.maxSize.height }
      ∧ (SixelParser.done hsl2rgb
          (SixelParser.parseFragment hsl2rgb p
            (0x22 :: (decimal pan ++ 0x3B :: (decimal pad ++ 0x3B :: (decimal w
              ++ 0x3B :: decimal h)))))).builder.sixelCursor
        = p.builder.sixelCursor := by
  constructor
  · rw [rasterCommand_size hsl2rgb p pan pad w h hg hw.1 hh.1]
    have e1 : min w maxParam = w := by unfold maxParam; omega
    have e2 : min h maxParam = h := by unfold maxParam; omega
    rw [e1, e2]
  · have hr := SixelParser.parse_raster hsl2rgb p hg pan [pad, w, h]
    have e : paramBytes [pan, pad, w, h]
        = decimal pan ++ 0x3B :: (decimal pad ++ 0x3B :: (decimal w ++ 0x3B :: decimal h)) := rfl
    rw [e] at hr
    rw [hr]
    rfl

/-- Witness of the amended C7, the scenario of `SixelParser.raster`: `"12;34;32;24`
on a 640x480 builder gives size (32, 24) with the cursor at (0, 0). -/
theorem raster_size_witness :
    (SixelParser.done (fun _ _ _ => {})
        (SixelParser.parseFragment (fun _ _ _ => {}) rasterTestParser
          (0x22 :: (decimal 12 ++ 0x3B :: (decimal 34 ++ 0x3B :: (decimal 32
            ++ 0x3B :: decimal 24)))))).builder.size
        = { width := 32, height := 24 }
      ∧ (SixelParser.done (fun _ _ _ => {})
          (SixelParser.parseFragment (fun _ _ _ => {}) rasterTestParser
            (0x22 :: (decimal 12 ++ 0x3B :: (decimal 34 ++ 0x3B :: (decimal 32
              ++ 0x3B :: decimal 24)))))).builder.sixelCursor
        = { line := 0, column := 0 } :=
  raster_size (fun _ _ _ => {}) rasterTestParser 12 34 32 24 rfl (by decide) (by decide)

/-- C7 as stated fails for a width beyond the largest parameter: on a builder of
maximum size 70000x480 the preamble `"1;1;70000;24` gives width 65535, not
min(70000, 70000). -/
theorem width_70000_clamped :
    (SixelParser.done (fun _ _ _ => {})
        (SixelParser.parseFragment (fun _ _ _ => {}) wideTestParser
          (0x22 :: (decimal 1 ++ 0x3B :: (decimal 1 ++ 0x3B :: (decimal 70000
            ++ 0x3B :: decimal 24)))))).builder.size
        = { width := 65535, height := 24 }
      ∧ min 70000 wideTestParser.builder.maxSize.width = 70000 := by
  constructor
  · rw [rasterCommand_size _ wideTestParser 1 1 70000 24 rfl (by decide) (by decide)]
    decide
  · decide


theorem rasterCommand_aspect (hsl2rgb : Nat → Nat → Nat → RGBColor) (p : SixelParser)
    (pan pad : Nat) (hg : p.state = State.Ground) :
    (SixelParser.done hsl2rgb
        (SixelParser.parseFragment hsl2rgb p
          (0x22 :: (decimal pan ++ 0x3B :: decimal pad)))).builder.aspectRatio
      = aspectRatioOf (min pan maxParam) (min pad maxParam) := by
  have hr := SixelParser.parse_raster hsl2rgb p hg pan [pad]
  have e : paramBytes [pan, pad] = decimal pan ++ 0x3B :: decimal pad := rfl
  rw [e] at hr
  rw [hr]
  rfl

/-! ## Colour definitions -/

theorem decimal_two : decimal 2 = [0x32] := by
  simp [decimal]

theorem percentToChannel_clamped (v : Nat) :
    SixelImageBuilder.percentToChannel (min v maxParam) = SixelImageBuilder.percentToChannel v := by
  unfold SixelImageBuilder.percentToChannel maxParam
  have h : min (min v 65535) 100 = min v 100 := by omega
  rw [h]

theorem percentToChannel_val (v : Nat) (hv : v ≤ 100) :
    (SixelImageBuilder.percentToChannel v).val = v * 255 / 100 := by
  unfold SixelImageBuilder.percentToChannel toUInt8
  have h : min v 100 = v := by omega
  simp only [h]
  omega

namespace SixelImageBuilder

theorem define_frame (b : SixelImageBuilder) (d : ColorDefinition) :
    (b.define d).sixelCursor = b.sixelCursor ∧ (b.define d).bounds = b.bounds
      ∧ (b.define d).buffer = b.buffer :=
  ⟨rfl, rfl, rfl⟩

theorem define_currentColorValue (b : SixelImageBuilder) (d : ColorDefinition) :
    (b.define d).currentColorValue = d.color := by
  unfold define currentColorValue useColor defineRgbColor setColor SixelColorPalette.colorAt
    SixelColorPalette.setColor SixelColorPalette.clampIndex ColorDefinition.color
  simp only [percentToChannel_clamped]
  rw [if_pos (by omega)]

theorem useColor_define_currentColorValue (b : SixelImageBuilder) (d : ColorDefinition) :
    ((b.define d).useColor (min d.index maxParam)).currentColorValue = d.color := by
  unfold define currentColorValue useColor defineRgbColor setColor SixelColorPalette.colorAt
    SixelColorPalette.setColor SixelColorPalette.clampIndex ColorDefinition.color
  simp only [percentToChannel_clamped]
  rw [if_pos (by omega)]

theorem foldl_define_frame (ds : List ColorDefinition) :
    ∀ b : SixelImageBuilder,
      (ds.foldl define b).sixelCursor = b.sixelCursor ∧ (ds.foldl define b).bounds = b.bounds
        ∧ (ds.foldl define b).buffer = b.buffer := by
  induction ds with
  | nil => intro b; exact ⟨rfl, rfl, rfl⟩
  | cons d ds ih =>
    intro b
    rw [List.foldl_cons]
    obtain ⟨h1, h2, h3⟩ := ih (b.define d)
    exact ⟨h1, h2, h3⟩

end SixelImageBuilder

namespace SixelParser

theorem parse_hash (hsl2rgb : Nat → Nat → Nat → RGBColor) (p : SixelParser) :
    p.parse hsl2rgb 0x23
      = { state := State.ColorIntroducer, params := [], builder := (p.flush hsl2rgb).builder } := by
  unfold parse
  cases hst : p.state <;> simp [ground, flush, hst, isDigit, isSixel]

theorem colorCommand_definition (hsl2rgb : Nat → Nat → Nat → RGBColor) (d : ColorDefinition)
    (b : SixelImageBuilder) :
    colorCommand hsl2rgb
        [min d.index maxParam, 2, min d.red maxParam, min d.green maxParam, min d.blue maxParam] b
      = b.define d := by
  simp [colorCommand, SixelImageBuilder.define]

theorem parse_definition (hsl2rgb : Nat → Nat → Nat → RGBColor) (d : ColorDefinition)
    (p : SixelParser) :
    parseFragment hsl2rgb p d.bytes
      = { state := State.ColorIntroducer
          params :=
            [min d.index maxParam, 2, min d.red maxParam, min d.green maxParam,
              min d.blue maxParam]
          builder := (p.flush hsl2rgb).builder } := by
  have e : d.bytes = 0x23 :: paramBytes [d.index, 2, d.red, d.green, d.blue] := by
    unfold ColorDefinition.bytes paramBytes paramBytes paramBytes paramBytes paramBytes
    rw [decimal_two]
    rfl
  rw [e, parseFragment_cons, parse_hash, parse_params hsl2rgb _ _ _ (Or.inr rfl) rfl]
  simp [maxParam]

theorem parse_color_sixel (hsl2rgb : Nat → Nat → Nat → RGBColor) (p : SixelParser) (byte : Nat)
    (hc : p.state = State.ColorIntroducer) (hb : isSixel byte) :
    p.parse hsl2rgb byte
      = { state := State.Ground
          params := []
          builder := (colorCommand hsl2rgb p.params p.builder).render (byte - 0x3F) } := by
  have hnd : ¬ isDigit byte := by
    unfold isSixel at hb
    unfold isDigit
    omega
  have hns : byte ≠ 0x3B := by
    unfold isSixel at hb
    omega
  unfold parse
  rw [hc]
  simp only [if_neg hnd, if_neg hns]
  unfold flush ground
  rw [hc]
  simp only [if_pos hb]

theorem flush_ground (hsl2rgb : Nat → Nat → Nat → RGBColor) (p : SixelParser)
    (hg : p.state = State.Ground) : p.flush hsl2rgb = p := by
  unfold flush
  rw [hg]

theorem parse_definitions (hsl2rgb : Nat → Nat → Nat → RGBColor) (ds : List ColorDefinition) :
    ∀ (d : ColorDefinition) (p : SixelParser),
      parseFragment hsl2rgb p (definitionsBytes (ds ++ [d]))
        = { state := State.ColorIntroducer
            params :=
              [min d.index maxParam, 2, min d.red maxParam, min d.green maxParam,
                min d.blue maxParam]
            builder := ds.foldl SixelImageBuilder.define (p.flush hsl2rgb).builder } := by
  induction ds with
  | nil =>
    intro d p
    show parseFragment hsl2rgb p (d.bytes ++ []) = _
    rw [List.append_nil, parse_definition]
    rfl
  | cons d0 ds ih =>
    intro d p
    show parseFragment hsl2rgb p (d0.bytes ++ definitionsBytes (ds ++ [d])) = _
    rw [parseFragment_concat, parse_definition, ih]
    simp only [flush, colorCommand_definition, List.foldl_cons]

end SixelParser

/-- C5: after `#i;2;r;g;b` (r, g, b in 0..100) and then `#i` followed by a sixel
byte, parsed from Ground, every pixel set by that sixel (a set pin inside the
image) has RGB value (r*255/100, g*255/100, b*255/100) and alpha 255; this holds
for every index `i`, in particular for those below the palette's maximum size. -/
theorem define_then_use_color (hsl2rgb : Nat → Nat → Nat → RGBColor) (p : SixelParser)
    (i r g b byte k : Nat) (hg : p.state = State.Ground) (hr : r ≤ 100) (hgr : g ≤ 100)
    (hbl : b ≤ 100) (hs : isSixel byte) (hk : k < 6) (hbit : (byte - 0x3F).testBit k = true)
    (hin : p.builder.inBounds
      { line := p.builder.sixelCursor.line + (k : Int), column := p.builder.sixelCursor.column }) :
    (((SixelParser.parseFragment hsl2rgb p
        ((0x23 :: (decimal i ++ 0x3B :: 0x32 :: 0x3B :: (decimal r
            ++ 0x3B :: (decimal g ++ 0x3B :: decimal b))))
          ++ 0x23 :: (decimal i ++ [byte]))).builder.pixelAt
        { line := p.builder.sixelCursor.line + (k : Int)
          column := p.builder.sixelCursor.column }).rgb
        = { red := toUInt8 (r * 255 / 100)
            green := toUInt8 (g * 255 / 100)
            blue := toUInt8 (b * 255 / 100) })
      ∧ ((SixelParser.parseFragment hsl2rgb p
          ((0x23 :: (decimal i ++ 0x3B :: 0x32 :: 0x3B :: (decimal r
              ++ 0x3B :: (decimal g ++ 0x3B :: decimal b))))
            ++ 0x23 :: (decimal i ++ [byte]))).builder.pixelAt
          { line := p.builder.sixelCursor.line + (k : Int)
            column := p.builder.sixelCursor.column }).alpha = 255 := by
  let d : ColorDefinition := { index := i, red := r, green := g, blue := b }
  have hparse : SixelParser.parseFragment hsl2rgb p
      ((0x23 :: (decimal i ++ 0x3B :: 0x32 :: 0x3B :: (decimal r
          ++ 0x3B :: (decimal g ++ 0x3B :: decimal b))))
        ++ 0x23 :: (decimal i ++ [byte]))
      = { state := State.Ground
          params := []
          builder := ((p.builder.define d).useColor (min i maxParam)).render (byte - 0x3F) } := by
    show SixelParser.parseFragment hsl2rgb p (d.bytes ++ 0x23 :: (decimal i ++ [byte])) = _
    rw [SixelParser.parseFragment_concat, SixelParser.parse_definition,
      SixelParser.parseFragment_cons, SixelParser.parse_hash, SixelParser.parseFragment_concat,
      SixelParser.parse_decimal_nil hsl2rgb _ i (by simp [SixelParser.flush]) rfl,
      SixelParser.parseFragment_cons, SixelParser.parseFragment_nil,
      SixelParser.parse_color_sixel hsl2rgb _ byte rfl hs]
    rw [SixelParser.flush_ground hsl2rgb p hg]
    simp only [SixelParser.flush]
    rw [SixelParser.colorCommand_definition hsl2rgb d p.builder]
    simp [SixelParser.colorCommand]
  rw [hparse]
  have hpix := (SixelImageBuilder.render_pixels ((p.builder.define d).useColor (min i maxParam))
    (byte - 0x3F)).1 k hk hin
  rw [if_pos hbit, SixelImageBuilder.useColor_define_currentColorValue] at hpix
  have hpix' : (((p.builder.define d).useColor (min i maxParam)).render (byte - 0x3F)).pixelAt
      { line := p.builder.sixelCursor.line + (k : Int), column := p.builder.sixelCursor.column }
      = RGBAColor.ofRGB d.color := hpix
  simp only []
  rw [hpix', ofRGB_rgb, ofRGB_alpha]
  refine ⟨?_, rfl⟩
  have e1 : min r 100 = r := by omega
  have e2 : min g 100 = g := by omega
  have e3 : min b 100 = b := by omega
  simp [d, ColorDefinition.color, SixelImageBuilder.percentToChannel, e1, e2, e3]


/-- Witness of C5, from `SixelParser.setAndUseColor`: `#1;2;100;0;0#1~` paints the
top pixel of column 0 red. -/
theorem define_then_use_color_witness :
    (((SixelParser.parseFragment (fun _ _ _ => {}) colorTestParser
        ((0x23 :: (decimal 1 ++ 0x3B :: 0x32 :: 0x3B :: (decimal 100
            ++ 0x3B :: (decimal 0 ++ 0x3B :: decimal 0))))
          ++ 0x23 :: (decimal 1 ++ [0x7E]))).builder.pixelAt
        { line := colorTestParser.builder.sixelCursor.line + ((0 : Nat) : Int)
          column := colorTestParser.builder.sixelCursor.column }).rgb
        = { red := toUInt8 (100 * 255 / 100)
            green := toUInt8 (0 * 255 / 100)
            blue := toUInt8 (0 * 255 / 100) })
      ∧ ((SixelParser.parseFragment (fun _ _ _ => {}) colorTestParser
          ((0x23 :: (decimal 1 ++ 0x3B :: 0x32 :: 0x3B :: (decimal 100
              ++ 0x3B :: (decimal 0 ++ 0x3B :: decimal 0))))
            ++ 0x23 :: (decimal 1 ++ [0x7E]))).builder.pixelAt
          { line := colorTestParser.builder.sixelCursor.line + ((0 : Nat) : Int)
            column := colorTestParser.builder.sixelCursor.column }).alpha = 255 :=
  define_then_use_color (fun _ _ _ => {}) colorTestParser 1 100 0 0 0x7E 0 rfl (by decide)
    (by decide) (by decide) (by decide) (by decide) (by decide) (by decide)

/-- C6: a colour definition also selects the colour: after one or more definitions
`#i;2;r;g;b` parsed from Ground, a sixel byte parsed next, with no colour select
in between, paints its set pins with the colour of the last definition, which
is then the builder's current colour. -/
theorem definition_selects_color (hsl2rgb : Nat → Nat → Nat → RGBColor) (p : SixelParser)
    (ds : List ColorDefinition) (d : ColorDefinition) (byte k : Nat)
    (hg : p.state = State.Ground) (hs : isSixel byte) (hk : k < 6)
    (hbit : (byte - 0x3F).testBit k = true)
    (hin : p.builder.inBounds
      { line := p.builder.sixelCursor.line + (k : Int), column := p.builder.sixelCursor.column }) :
    (SixelParser.parseFragment hsl2rgb p (definitionsBytes (ds ++ [d]) ++ [byte])).builder.pixelAt
        { line := p.builder.sixelCursor.line + (k : Int), column := p.builder.sixelCursor.column }
        = RGBAColor.ofRGB d.color
      ∧ (SixelParser.parseFragment hsl2rgb p
          (definitionsBytes (ds ++ [d]) ++ [byte])).builder.currentColorValue = d.color := by
  have hparse : SixelParser.parseFragment hsl2rgb p (definitionsBytes (ds ++ [d]) ++ [byte])
      = { state := State.Ground
          params := []
          builder :=
            ((ds.foldl SixelImageBuilder.define p.builder).define d).render (byte - 0x3F) } := by
    rw [SixelParser.parseFragment_concat, SixelParser.parse_definitions,
      SixelParser.parseFragment_cons, SixelParser.parseFragment_nil,
      SixelParser.parse_color_sixel hsl2rgb _ byte rfl hs, SixelParser.flush_ground hsl2rgb p hg]
    simp only []
    rw [SixelParser.colorCommand_definition]
  rw [hparse]
  obtain ⟨f1, f2, _⟩ := SixelImageBuilder.foldl_define_frame ds p.builder
  have c1 : ((ds.foldl SixelImageBuilder.define p.builder).define d).sixelCursor
      = p.builder.sixelCursor := f1
  have c2 : ((ds.foldl SixelImageBuilder.define p.builder).define d).bounds
      = p.builder.bounds := f2
  have hin' : ((ds.foldl SixelImageBuilder.define p.builder).define d).inBounds
      { line := ((ds.foldl SixelImageBuilder.define p.builder).define d).sixelCursor.line + (k : Int)
        column := ((ds.foldl SixelImageBuilder.define p.builder).define d).sixelCursor.column } := by
    unfold SixelImageBuilder.inBounds at hin ⊢
    rw [c1, c2]
    exact hin
  have hpix := (SixelImageBuilder.render_pixels
    ((ds.foldl SixelImageBuilder.define p.builder).define d) (byte - 0x3F)).1 k hk hin'
  rw [if_pos hbit, SixelImageBuilder.define_currentColorValue, c1] at hpix
  refine ⟨hpix, ?_⟩
  obtain ⟨_, g2, g3, _⟩ := SixelImageBuilder.render_frame
    ((ds.foldl SixelImageBuilder.define p.builder).define d) (byte - 0x3F)
  have hcur := SixelImageBuilder.define_currentColorValue
    (ds.foldl SixelImageBuilder.define p.builder) d
  unfold SixelImageBuilder.currentColorValue at hcur ⊢
  simp only []
  rw [g2, g3]
  exact hcur

/-- Witness of C6, the scenario of `SixelParser.setAndUseColor`: after the four
definitions `#1;2;100;0;0`, `#2;2;0;100;0`, `#3;2;0;0;100`, `#4;2;100;100;100` the
byte `~` paints with the colour of index 4. -/
theorem definition_selects_color_witness :
    (SixelParser.parseFragment (fun _ _ _ => {}) colorTestParser
        (definitionsBytes
            ([{ index := 1, red := 100, green := 0, blue := 0 },
                { index := 2, red := 0, green := 100, blue := 0 },
                { index := 3, red := 0, green := 0, blue := 100 }]
              ++ [{ index := 4, red := 100, green := 100, blue := 100 }])
          ++ [0x7E])).builder.currentColorValue
      = ({ index := 4, red := 100, green := 100, blue := 100 } : ColorDefinition).color :=
  (definition_selects_color (fun _ _ _ => {}) colorTestParser
    [{ index := 1, red := 100, green := 0, blue := 0 },
      { index := 2, red := 0, green := 100, blue := 0 },
      { index := 3, red := 0, green := 0, blue := 100 }]
    { index := 4, red := 100, green := 100, blue := 100 } 0x7E 0 rfl (by decide) (by decide)
    (by decide) (by decide)).2

/-! ## `Color.h`: distance to itself, packing, saturating sum -/

theorem u32Sub_self (a : Nat) : u32Sub a a = 0 := by
  unfold u32Sub u32Modulus
  have h := Nat.mod_lt a (show 0 < 4294967296 by decide)
  omega

theorem distanceRadicand_self (a : RGBColor) : distanceRadicand a a = 0 := by
  unfold distanceRadicand
  simp only [u32Sub_self]
  simp [u32Mul, u32Add, u32Modulus]

/-- C11: for every RGB colour `a`, `distance(a, a) == 0`: the integer handed to
`sqrt` is 0, so the result is `sqrt(0)`, which is 0. -/
theorem distance_self {α : Type} (sqrt : Nat → α) (zero : α) (hsqrt : sqrt 0 = zero)
    (a : RGBColor) : distance sqrt a a = zero := by
  unfold distance
  rw [distanceRadicand_self, hsqrt]

/-- Witness of C11 with the integer square root: the distance of (0x10, 0x20, 0x30)
to itself. -/
theorem distance_self_witness :
    Nat.sqrt 0 = 0
      ∧ distance Nat.sqrt { red := 0x10, green := 0x20, blue := 0x30 }
          { red := 0x10, green := 0x20, blue := 0x30 } = 0 :=
  ⟨by decide, distance_self Nat.sqrt 0 (by decide) { red := 0x10, green := 0x20, blue := 0x30 }⟩

/-- C12: `RGBAColor(r, g, b, a)` has `value == (r << 24) | (g << 16) | (b << 8) | a`,
which is `r·2^24 + g·2^16 + b·2^8 + a` and fits 32 bits; `red()`, `green()`,
`blue()`, `alpha()` return `r`, `g`, `b`, `a`; `RGBAColor(RGBColor c)` has alpha
0xFF. -/
theorem rgba_pack_unpack (r g b a : Fin 256) (c : RGBColor) :
    (RGBAColor.ofChannels r g b a).value
        = (r.val <<< 24) ||| (g.val <<< 16) ||| (b.val <<< 8) ||| a.val
      ∧ (RGBAColor.ofChannels r g b a).value
        = r.val * 2 ^ 24 + g.val * 2 ^ 16 + b.val * 2 ^ 8 + a.val
      ∧ (RGBAColor.ofChannels r g b a).value < u32Modulus
      ∧ (RGBAColor.ofChannels r g b a).red = r
      ∧ (RGBAColor.ofChannels r g b a).green = g
      ∧ (RGBAColor.ofChannels r g b a).blue = b
      ∧ (RGBAColor.ofChannels r g b a).alpha = a
      ∧ (RGBAColor.ofRGB c).alpha = 0xFF := by
  have hr := r.isLt
  have hg := g.isLt
  have hb := b.isLt
  have ha := a.isLt
  have hv := ofChannels_value r g b a
  refine ⟨rfl, ?_, ?_, ?_, ?_, ?_, ?_, ofRGB_alpha c⟩
  · rw [hv]; omega
  · rw [hv]; unfold u32Modulus; omega
  · unfold RGBAColor.red toUInt8
    apply Fin.ext
    simp only [hv, Nat.shiftRight_eq_div_pow, and_255]
    omega
  · unfold RGBAColor.green toUInt8
    apply Fin.ext
    simp only [hv, Nat.shiftRight_eq_div_pow, and_255]
    omega
  · unfold RGBAColor.blue toUInt8
    apply Fin.ext
    simp only [hv, Nat.shiftRight_eq_div_pow, and_255]
    omega
  · unfold RGBAColor.alpha toUInt8
    apply Fin.ext
    simp only [hv, and_255]
    omega

/-- C13: for every RGB colour `c` and every 8-bit alpha `a`,
`RGBAColor(c, a).rgb() == c`. -/
theorem rgba_rgb_roundtrip (c : RGBColor) (a : Fin 256) : (RGBAColor.ofRGBAlpha c a).rgb = c := by
  unfold RGBAColor.ofRGBAlpha
  rw [ofChannels_rgb]

theorem clampUnsigned_255 (v : Nat) : clampUnsigned v 0 255 = min v 255 := by
  unfold clampUnsigned
  split
  · omega
  · split <;> omega

/-- C16: `RGBColor` addition saturates per channel: each channel of `a + b` is
`min(a.channel + b.channel, 255)` computed without wraparound, and therefore
`a + b == b + a`. -/
theorem rgb_add_saturates (a b : RGBColor) :
    ((a.add b).red.val = min (a.red.val + b.red.val) 255
        ∧ (a.add b).green.val = min (a.green.val + b.green.val) 255
        ∧ (a.add b).blue.val = min (a.blue.val + b.blue.val) 255)
      ∧ a.add b = b.add a := by
  constructor
  · unfold RGBColor.add toUInt8
    simp only [clampUnsigned_255]
    refine ⟨?_, ?_, ?_⟩ <;> omega
  · unfold RGBColor.add
    rw [Nat.add_comm a.red.val, Nat.add_comm a.green.val, Nat.add_comm a.blue.val]

/-- C18: `p.isTooSimilar(t)` is true iff `distance(p.foreground, p.background) <= t`;
`p.distinct(t)` is `p` when `p` is not too similar at `t` and the pair
`(p.foreground.inverse(), p.foreground)` otherwise. -/
theorem pair_similar_distinct {α : Type} (sqrt : Nat → α) (le : α → α → Bool)
    (p : RGBColorPair) (t : α) :
    (p.isTooSimilar sqrt le t = true ↔ le (distance sqrt p.foreground p.background) t = true)
      ∧ (p.isTooSimilar sqrt le t = false → p.distinct sqrt le t = p)
      ∧ (p.isTooSimilar sqrt le t = true →
          p.distinct sqrt le t
            = { foreground := p.foreground.inverse, background := p.foreground }) := by
  refine ⟨Iff.rfl, ?_, ?_⟩
  · intro h
    unfold RGBColorPair.distinct
    rw [h]
    rfl
  · intro h
    unfold RGBColorPair.distinct
    rw [h]
    rfl
/-! ## `Color.h`: the packed Color -/

theorem and_16777215 (x : Nat) : x &&& 16777215 = x % 16777216 := by
  have h := Nat.and_pow_two_sub_one_eq_mod x 24
  norm_num at h
  exact h

theorem rgbColor_value (c : RGBColor) :
    c.value = c.red.val * 65536 + c.green.val * 256 + c.blue.val := by
  have hr := c.red.isLt
  have hg := c.green.isLt
  have hb := c.blue.isLt
  unfold RGBColor.value u32Modulus
  simp only [Nat.shiftLeft_eq]
  have h1 : c.red.val * 2 ^ 16 ||| c.green.val * 2 ^ 8
      = 2 ^ 16 * c.red.val + c.green.val * 2 ^ 8 := by
    rw [Nat.mul_comm c.red.val, Nat.mul_add_lt_is_or (by omega)]
  have h2 : (2 ^ 16 * c.red.val + c.green.val * 2 ^ 8) ||| c.blue.val
      = 2 ^ 8 * (2 ^ 8 * c.red.val + c.green.val) + c.blue.val := by
    have e : 2 ^ 16 * c.red.val + c.green.val * 2 ^ 8
        = 2 ^ 8 * (2 ^ 8 * c.red.val + c.green.val) := by omega
    rw [e]
    exact (Nat.mul_add_lt_is_or hb _).symm
  rw [h1, h2]
  omega

theorem ofTypeValue_content (t : ColorType) (v : Fin 256) :
    (Color.ofTypeValue t v).content = t.raw.val * 16777216 + v.val := by
  have ht := t.raw.isLt
  have hv := v.isLt
  unfold Color.ofTypeValue u32Modulus
  simp only [Nat.shiftLeft_eq, and_255]
  have e1 : t.raw.val * 2 ^ 24 % 4294967296 = 2 ^ 24 * t.raw.val := by omega
  have e2 : v.val % 256 = v.val := by omega
  rw [e1, e2, ← Nat.mul_add_lt_is_or (by omega)]
  omega

theorem ofRGBColor_content (c : RGBColor) :
    (Color.ofRGBColor c).content
      = 4 * 16777216 + (c.red.val * 65536 + c.green.val * 256 + c.blue.val) := by
  have hr := c.red.isLt
  have hg := c.green.isLt
  have hb := c.blue.isLt
  unfold Color.ofRGBColor
  rw [rgbColor_value, Nat.lor_comm]
  have e1 : (ColorType.RGB.raw.val <<< 24) % u32Modulus = 2 ^ 24 * 4 := by decide
  rw [e1, ← Nat.mul_add_lt_is_or (by omega)]

theorem color_type_of_content (c : Color) (t : Fin 256) (payload : Nat)
    (hp : payload < 16777216) (hc : c.content = t.val * 16777216 + payload) :
    c.type = { raw := t } := by
  have ht := t.isLt
  unfold Color.type toUInt8
  simp only [hc, Nat.shiftRight_eq_div_pow, and_255]
  congr 1
  apply Fin.ext
  show (t.val * 16777216 + payload) / 2 ^ 24 % 256 % 256 = t.val
  omega

theorem ofTypeValue_type (t : ColorType) (v : Fin 256) : (Color.ofTypeValue t v).type = t := by
  have hv := v.isLt
  exact color_type_of_content _ t.raw v.val (by omega) (ofTypeValue_content t v)

theorem ofTypeValue_index (t : ColorType) (v : Fin 256) : (Color.ofTypeValue t v).index = v := by
  have hv := v.isLt
  unfold Color.index toUInt8
  apply Fin.ext
  simp only [ofTypeValue_content, and_255]
  omega

theorem ofRGBColor_type (c : RGBColor) : (Color.ofRGBColor c).type = ColorType.RGB := by
  have hr := c.red.isLt
  have hg := c.green.isLt
  have hb := c.blue.isLt
  exact color_type_of_content _ 4 _ (by omega) (ofRGBColor_content c)

theorem ofRGBColor_rgb (c : RGBColor) : (Color.ofRGBColor c).rgb = c := by
  have hr := c.red.isLt
  have hg := c.green.isLt
  have hb := c.blue.isLt
  unfold Color.rgb RGBColor.ofUInt32 toUInt8
  rw [ofRGBColor_content]
  simp only [Nat.shiftRight_eq_div_pow, and_255, and_16777215]
  congr 1 <;> apply Fin.ext <;> simp only [] <;> omega

/-- C14: the packed `Color` keeps its tag in bits 24..31 and its payload in the
low 24 bits: `Color(c)` has type RGB and `rgb() == c`; `Indexed(i)` and
`Bright(i)` have types Indexed and Bright and `index() == i`; `Undefined()` and
`Default()` have types Undefined and Default; so exactly one of `isUndefined`,
`isDefaultColor`, `isIndexedColor`, `isBrightColor`, `isRGBColor` holds for each
constructed `Color`. -/
theorem color_tag_and_payload (c : RGBColor) (i : Fin 256) :
    ((Color.ofRGBColor c).content / 2 ^ 24 = 4 ∧ (Color.Indexed i).content / 2 ^ 24 = 3
        ∧ (Color.Bright i).content / 2 ^ 24 = 2 ∧ Color.Default.content / 2 ^ 24 = 1
        ∧ Color.Undefined.content / 2 ^ 24 = 0)
      ∧ ((Color.ofRGBColor c).type = ColorType.RGB ∧ (Color.ofRGBColor c).rgb = c)
      ∧ ((Color.Indexed i).type = ColorType.Indexed ∧ (Color.Indexed i).index = i)
      ∧ ((Color.Bright i).type = ColorType.Bright ∧ (Color.Bright i).index = i)
      ∧ (Color.Undefined.type = ColorType.Undefined ∧ Color.Default.type = ColorType.Default)
      ∧ (isUndefined Color.Undefined = true ∧ isDefaultColor Color.Undefined = false
          ∧ isIndexedColor Color.Undefined = false ∧ isBrightColor Color.Undefined = false
          ∧ isRGBColor Color.Undefined = false)
      ∧ (isUndefined Color.Default = false ∧ isDefaultColor Color.Default = true
          ∧ isIndexedColor Color.Default = false ∧ isBrightColor Color.Default = false
          ∧ isRGBColor Color.Default = false)
      ∧ (isUndefined (Color.Indexed i) = false ∧ isDefaultColor (Color.Indexed i) = false
          ∧ isIndexedColor (Color.Indexed i) = true ∧ isBrightColor (Color.Indexed i) = false
          ∧ isRGBColor (Color.Indexed i) = false)
      ∧ (isUndefined (Color.Bright i) = false ∧ isDefaultColor (Color.Bright i) = false
          ∧ isIndexedColor (Color.Bright i) = false ∧ isBrightColor (Color.Bright i) = true
          ∧ isRGBColor (Color.Bright i) = false)
      ∧ (isUndefined (Color.ofRGBColor c) = false ∧ isDefaultColor (Color.ofRGBColor c) = false
          ∧ isIndexedColor (Color.ofRGBColor c) = false
          ∧ isBrightColor (Color.ofRGBColor c) = false
          ∧ isRGBColor (Color.ofRGBColor c) = true) := by
  have hr := c.red.isLt
  have hg := c.green.isLt
  have hb := c.blue.isLt
  have hi := i.isLt
  have tU : Color.Undefined.type = ColorType.Undefined := ofTypeValue_type _ _
  have tD : Color.Default.type = ColorType.Default := ofTypeValue_type _ _
  have tI : (Color.Indexed i).type = ColorType.Indexed := ofTypeValue_type _ _
  have tB : (Color.Bright i).type = ColorType.Bright := ofTypeValue_type _ _
  have tR := ofRGBColor_type c
  refine ⟨⟨?_, ?_, ?_, ?_, ?_⟩, ⟨tR, ofRGBColor_rgb c⟩, ⟨tI, ofTypeValue_index _ _⟩,
    ⟨tB, ofTypeValue_index _ _⟩, ⟨tU, tD⟩, ?_, ?_, ?_, ?_, ?_⟩
  · rw [ofRGBColor_content]; omega
  · unfold Color.Indexed; rw [ofTypeValue_content]
    have : ColorType.Indexed.raw.val = 3 := rfl
    omega
  · unfold Color.Bright; rw [ofTypeValue_content]
    have : ColorType.Bright.raw.val = 2 := rfl
    omega
  · decide
  · decide
  · simp only [isUndefined, isDefaultColor, isIndexedColor, isBrightColor, isRGBColor, tU]
    decide
  · simp only [isUndefined, isDefaultColor, isIndexedColor, isBrightColor, isRGBColor, tD]
    decide
  · simp only [isUndefined, isDefaultColor, isIndexedColor, isBrightColor, isRGBColor, tI]
    decide
  · simp only [isUndefined, isDefaultColor, isIndexedColor, isBrightColor, isRGBColor, tB]
    decide
  · simp only [isUndefined, isDefaultColor, isIndexedColor, isBrightColor, isRGBColor, tR]
    decide

theorem toColor_content (v : ColorVariant) :
    v.toColor.content
      = match v with
        | ColorVariant.undefined => 0
        | ColorVariant.default => 16777216
        | ColorVariant.bright i => 2 * 16777216 + i.val
        | ColorVariant.indexed i => 3 * 16777216 + i.val
        | ColorVariant.rgb c =>
          4 * 16777216 + (c.red.val * 65536 + c.green.val * 256 + c.blue.val) := by
  cases v with
  | undefined => decide
  | default => decide
  | bright i =>
    show (Color.ofTypeValue ColorType.Bright i).content = _
    rw [ofTypeValue_content]
    rfl
  | indexed i =>
    show (Color.ofTypeValue ColorType.Indexed i).content = _
    rw [ofTypeValue_content]
    rfl
  | rgb c => exact ofRGBColor_content c

/-- C15: `Color` equality is structural: two colours built from `Undefined()`,
`Default()`, `Bright(i)`, `Indexed(j)` or `Color(RGBColor)` are `==` if and only
if they are the same variant with the same payload. -/
theorem color_eq_iff_same_variant (v w : ColorVariant) : v.toColor = w.toColor ↔ v = w := by
  constructor
  · intro h
    have hc : v.toColor.content = w.toColor.content := by rw [h]
    rw [toColor_content, toColor_content] at hc
    cases v with
    | undefined =>
      cases w with
      | undefined => rfl
      | default => simp only at hc; omega
      | bright j => simp only at hc; omega
      | indexed j => simp only at hc; omega
      | rgb d => simp only at hc; omega
    | default =>
      cases w with
      | undefined => simp only at hc; omega
      | default => rfl
      | bright j => simp only at hc; omega
      | indexed j => simp only at hc; omega
      | rgb d => simp only at hc; omega
    | bright i =>
      have hi := i.isLt
      cases w with
      | undefined => simp only at hc; omega
      | default => simp only at hc; omega
      | bright j =>
        simp only at hc
        have : i = j := Fin.ext (by omega)
        rw [this]
      | indexed j =>
        have hj := j.isLt
        simp only at hc
        omega
      | rgb d => simp only at hc; omega
    | indexed i =>
      have hi := i.isLt
      cases w with
      | undefined => simp only at hc; omega
      | default => simp only at hc; omega
      | bright j =>
        have hj := j.isLt
        simp only at hc
        omega
      | indexed j =>
        simp only at hc
        have : i = j := Fin.ext (by omega)
        rw [this]
      | rgb d => simp only at hc; omega
    | rgb c =>
      have hr := c.red.isLt
      have hg := c.green.isLt
      have hb := c.blue.isLt
      cases w with
      | undefined => simp only at hc; omega
      | default => simp only at hc; omega
      | bright j =>
        have hj := j.isLt
        simp only at hc
        omega
      | indexed j =>
        have hj := j.isLt
        simp only at hc
        omega
      | rgb d =>
        have hr' := d.red.isLt
        have hg' := d.green.isLt
        have hb' := d.blue.isLt
        simp only at hc
        have e1 : c.red = d.red := Fin.ext (by omega)
        have e2 : c.green = d.green := Fin.ext (by omega)
        have e3 : c.blue = d.blue := Fin.ext (by omega)
        cases c
        cases d
        simp only at e1 e2 e3
        rw [e1, e2, e3]
  · intro h
    rw [h]
/-! ## `Color.h`: mix -/

/-- C17 (amended): for all RGB colours `a`, `b` and every `t`, each channel of
`mix(a, b, t)` is `min(255, x + y)` where `x` is `a.channel*t` clamped to [0, 255]
and converted to 8 bits and `y` is `b.channel*(1-t)` clamped to [0, 255] and
converted to 8 bits: each product is converted to 8 bits before the sum. -/
theorem mix_channels {F : Type} (ops : FloatOps F) (a b : RGBColor) (t : F) :
    (mix ops a b t).red.val
        = min ((ops.toUInt8 (ops.clamp (ops.mul (ops.ofUInt8 a.red) t))).val
            + (ops.toUInt8 (ops.clamp (ops.mul (ops.ofUInt8 b.red) (ops.oneMinus t)))).val) 255
      ∧ (mix ops a b t).green.val
        = min ((ops.toUInt8 (ops.clamp (ops.mul (ops.ofUInt8 a.green) t))).val
            + (ops.toUInt8 (ops.clamp (ops.mul (ops.ofUInt8 b.green) (ops.oneMinus t)))).val) 255
      ∧ (mix ops a b t).blue.val
        = min ((ops.toUInt8 (ops.clamp (ops.mul (ops.ofUInt8 a.blue) t))).val
            + (ops.toUInt8 (ops.clamp (ops.mul (ops.ofUInt8 b.blue) (ops.oneMinus t)))).val)
          255 := by
  unfold mix RGBColor.add RGBColor.scale toUInt8
  simp only [clampUnsigned_255]
  refine ⟨?_, ?_, ?_⟩ <;> omega

/-- C17 as stated fails at `t = 0.5`: `mix(white, white, 0.5)` is (254, 254, 254),
since 255·0.5 = 127.5 becomes 127 twice, while 255·0.5 + 255·0.5 clamped and
converted once is 255, the channel of white. -/
theorem mix_white_white_half :
    mix exactFloatOps white white oneHalf = { red := 254, green := 254, blue := 254 }
      ∧ mixAsSpecified exactFloatOps white white oneHalf = white
      ∧ mix exactFloatOps white white oneHalf ≠ mixAsSpecified exactFloatOps white white oneHalf := by
  decide

/-! ## Sixels outside the image and a raster preamble without denominator -/

/-- C19: a sixel byte rendered in Ground while the cursor column is at or beyond
the image width, or the cursor line at or beyond the image height, changes no
pixel, and the cursor column still advances by 1. -/
theorem sixel_outside_image (hsl2rgb : Nat → Nat → Nat → RGBColor) (p : SixelParser)
    (byte : Nat) (hg : p.state = State.Ground) (hb : isSixel byte)
    (hout : (p.builder.bounds.width : Int) ≤ p.builder.sixelCursor.column
      ∨ (p.builder.bounds.height : Int) ≤ p.builder.sixelCursor.line) :
    (p.parse hsl2rgb byte).state = State.Ground
      ∧ (∀ pos : CellLocation,
          (p.parse hsl2rgb byte).builder.pixelAt pos = p.builder.pixelAt pos)
      ∧ (p.parse hsl2rgb byte).builder.sixelCursor
          = { line := p.builder.sixelCursor.line, column := p.builder.sixelCursor.column + 1 } := by
  rw [SixelParser.parse_sixel_in_ground hsl2rgb p byte hg hb]
  refine ⟨rfl, ?_, rfl⟩
  intro pos
  unfold SixelImageBuilder.pixelAt
  apply SixelImageBuilder.render_buffer_miss
  rintro j _ ⟨_, hin, _, _⟩
  unfold SixelImageBuilder.inBounds at hin
  simp only at hin
  omega

section OutsideImage

set_option maxRecDepth 1000000

/-- Witness of C19: after the five columns of `SixelParser.setAndUseColor` are
painted the cursor is at column 5 of the 5-wide image, and one more `~` only
moves it to column 6. -/
theorem sixel_outside_image_witness :
    (fullRowTestParser.parse (fun _ _ _ => {}) 0x7E).builder.sixelCursor
      = { line := 0, column := 6 } :=
  (sixel_outside_image (fun _ _ _ => {}) fullRowTestParser 0x7E rfl (by decide)
    (by decide)).2.2

end OutsideImage

/-- C20: for every `pan` and every prior builder state, the raster preamble
`"pan;0`, parsed from Ground and followed by `done()`, leaves the aspect ratio 1. -/
theorem raster_pad_zero (hsl2rgb : Nat → Nat → Nat → RGBColor) (p : SixelParser) (pan : Nat)
    (hg : p.state = State.Ground) :
    (SixelParser.done hsl2rgb
        (SixelParser.parseFragment hsl2rgb p
          (0x22 :: (decimal pan ++ 0x3B :: decimal 0)))).builder.aspectRatio = 1 := by
  rw [rasterCommand_aspect hsl2rgb p pan 0 hg]
  rfl

/-- Witness of C20: `"5;0` on the parser of `SixelParser.raster` once `"15;2` has
set the aspect ratio to 8. -/
theorem raster_pad_zero_witness :
    (SixelParser.done (fun _ _ _ => {})
        (SixelParser.parseFragment (fun _ _ _ => {}) aspect8TestParser
          (0x22 :: (decimal 5 ++ 0x3B :: decimal 0)))).builder.aspectRatio = 1 :=
  raster_pad_zero (fun _ _ _ => {}) aspect8TestParser 5 rfl

/-! ## Repeat count 0, bytes outside the alphabet, vertical cursor advance -/

theorem decimal_zero : decimal 0 = [0x30] := by
  simp [decimal]

/-- C21: a repeat count of 0 or a missing repeat count is treated as 1: parsed
from Ground, `!0` followed by a sixel byte and `!` followed directly by the
sixel byte both leave the parser and the builder exactly as the sixel byte
parsed once does, with the cursor one column further. -/
theorem repeat_zero_or_missing (hsl2rgb : Nat → Nat → Nat → RGBColor) (p : SixelParser)
    (byte : Nat) (hg : p.state = State.Ground) (hb : isSixel byte) :
    SixelParser.parseFragment hsl2rgb p (0x21 :: decimal 0 ++ [byte]) = p.parse hsl2rgb byte
      ∧ SixelParser.parseFragment hsl2rgb p [0x21, byte] = p.parse hsl2rgb byte
      ∧ (p.parse hsl2rgb byte).builder = p.builder.render (byte - 0x3F)
      ∧ (p.parse hsl2rgb byte).builder.sixelCursor
          = { line := p.builder.sixelCursor.line, column := p.builder.sixelCursor.column + 1 } := by
  have hone := SixelParser.parse_sixel_in_ground hsl2rgb p byte hg hb
  have hnd : ¬ isDigit byte := by
    unfold isSixel at hb
    unfold isDigit
    omega
  refine ⟨?_, ?_, ?_, ?_⟩
  · rw [SixelParser.parse_repeat hsl2rgb p 0 byte hg hb, hone]
    rfl
  · have h1 : p.parse hsl2rgb 0x21
        = { state := State.RepeatIntroducer, params := [], builder := p.builder } := by
      unfold SixelParser.parse SixelParser.ground
      rw [hg]
      simp [isSixel]
    rw [SixelParser.parseFragment_cons, h1, SixelParser.parseFragment_cons,
      SixelParser.parseFragment_nil, hone]
    unfold SixelParser.parse
    simp only [if_neg hnd, if_pos hb]
    rfl
  · rw [hone]
  · rw [hone]
    rfl

/-- Witness of C21 on the parser of `SixelParser.ground_010101`: `!0~` and `!~`. -/
theorem repeat_zero_or_missing_witness :
    SixelParser.parseFragment (fun _ _ _ => {}) groundTestParser (0x21 :: decimal 0 ++ [0x7E])
        = groundTestParser.parse (fun _ _ _ => {}) 0x7E
      ∧ SixelParser.parseFragment (fun _ _ _ => {}) groundTestParser [0x21, 0x7E]
        = groundTestParser.parse (fun _ _ _ => {}) 0x7E :=
  ⟨(repeat_zero_or_missing (fun _ _ _ => {}) groundTestParser 0x7E rfl (by decide)).1,
    (repeat_zero_or_missing (fun _ _ _ => {}) groundTestParser 0x7E rfl (by decide)).2.1⟩

/-- C22: a byte outside the Sixel alphabet parsed in Ground leaves the parser
unchanged, and with it the state, the cursor, the current colour, the palette
and every pixel; it is enough that the byte is no sixel byte and none of `!`,
`"`, `#`, `$`, `-`. -/
theorem other_byte_ignored (hsl2rgb : Nat → Nat → Nat → RGBColor) (p : SixelParser)
    (byte : Nat) (hg : p.state = State.Ground) (hs : ¬ isSixel byte)
    (hne : byte ≠ 0x21 ∧ byte ≠ 0x22 ∧ byte ≠ 0x23 ∧ byte ≠ 0x24 ∧ byte ≠ 0x2D) :
    p.parse hsl2rgb byte = p
      ∧ (p.parse hsl2rgb byte).state = State.Ground
      ∧ (p.parse hsl2rgb byte).builder.sixelCursor = p.builder.sixelCursor
      ∧ (p.parse hsl2rgb byte).builder.currentColor = p.builder.currentColor
      ∧ (p.parse hsl2rgb byte).builder.colors = p.builder.colors
      ∧ (∀ pos : CellLocation,
          (p.parse hsl2rgb byte).builder.pixelAt pos = p.builder.pixelAt pos) := by
  obtain ⟨h1, h2, h3, h4, h5⟩ := hne
  have hp : p.parse hsl2rgb byte = p := by
    unfold SixelParser.parse SixelParser.ground
    rw [hg]
    simp only [if_neg hs, if_neg h1, if_neg h2, if_neg h3, if_neg h4, if_neg h5]
  rw [hp]
  exact ⟨rfl, hg, rfl, rfl, rfl, fun _ => rfl⟩

/-- Witness of C22 on the parser of `SixelParser.ground_010101`: a space. -/
theorem other_byte_ignored_witness :
    groundTestParser.parse (fun _ _ _ => {}) 0x20 = groundTestParser :=
  (other_byte_ignored (fun _ _ _ => {}) groundTestParser 0x20 rfl (by decide) (by decide)).1

namespace SixelParser

end SixelParser

theorem absDiff_le (a b : Nat) (ha : a < 256) (hb : b < 256) : absDiff a b ≤ 255 := by
  unfold absDiff
  split <;> omega

theorem weighted_square_bound (k d : Nat) (hk : k ≤ 767) (hd : d ≤ 255) :
    k * d * d ≤ 49874175 := by
  have h1 : k * d ≤ 767 * 255 := Nat.mul_le_mul hk hd
  have h2 : k * d * d ≤ 767 * 255 * 255 := Nat.mul_le_mul h1 hd
  omega

theorem u32Mul_weighted_square (k a b : Nat) (hk : k ≤ 767) (ha : a < 256) (hb : b < 256) :
    u32Mul (u32Mul k (u32Sub a b)) (u32Sub a b) = k * absDiff a b ^ 2 := by
  have hbound := weighted_square_bound k (absDiff a b) hk (absDiff_le a b ha hb)
  have hsq : k * absDiff a b ^ 2 = k * absDiff a b * absDiff a b := by
    rw [Nat.pow_two, Nat.mul_assoc]
  rw [hsq]
  rcases Nat.le_total b a with h | h
  · have e : u32Sub a b = absDiff a b := by
      unfold u32Sub absDiff u32Modulus
      rw [if_pos h]
      omega
    rw [u32Mul_chain, e]
    exact Nat.mod_eq_of_lt (by unfold u32Modulus; omega)
  · have e : u32Sub b a = absDiff a b := by
      unfold u32Sub absDiff u32Modulus
      split <;> omega
    rw [u32Mul_sq_symm, u32Mul_chain, e]
    exact Nat.mod_eq_of_lt (by unfold u32Modulus; omega)

theorem distanceRadicand_eq_exact (e1 e2 : RGBColor) :
    distanceRadicand e1 e2 = exactRadicand e1 e2 := by
  have hr1 := e1.red.isLt
  have hr2 := e2.red.isLt
  have hg1 := e1.green.isLt
  have hg2 := e2.green.isLt
  have hb1 := e1.blue.isLt
  have hb2 := e2.blue.isLt
  have hmean : u32Add e1.red.val e2.red.val / 2 = (e1.red.val + e2.red.val) / 2 := by
    unfold u32Add u32Modulus
    omega
  have hw1 : u32Add 512 ((e1.red.val + e2.red.val) / 2) = 512 + (e1.red.val + e2.red.val) / 2 := by
    unfold u32Add u32Modulus
    omega
  have hw3 : u32Sub 767 ((e1.red.val + e2.red.val) / 2) = 767 - (e1.red.val + e2.red.val) / 2 := by
    unfold u32Sub u32Modulus
    omega
  have hA := u32Mul_weighted_square (512 + (e1.red.val + e2.red.val) / 2) e1.red.val e2.red.val
    (by omega) hr1 hr2
  have hB := u32Mul_weighted_square 4 e1.green.val e2.green.val (by omega) hg1 hg2
  have hC := u32Mul_weighted_square (767 - (e1.red.val + e2.red.val) / 2) e1.blue.val e2.blue.val
    (by omega) hb1 hb2
  have bA := weighted_square_bound (512 + (e1.red.val + e2.red.val) / 2)
    (absDiff e1.red.val e2.red.val) (by omega) (absDiff_le _ _ hr1 hr2)
  have bB := weighted_square_bound 4 (absDiff e1.green.val e2.green.val) (by omega)
    (absDiff_le _ _ hg1 hg2)
  have bC := weighted_square_bound (767 - (e1.red.val + e2.red.val) / 2)
    (absDiff e1.blue.val e2.blue.val) (by omega) (absDiff_le _ _ hb1 hb2)
  unfold distanceRadicand exactRadicand
  simp only [hmean, hw1, hw3, hA, hB, hC, Nat.shiftRight_eq_div_pow]
  simp only [Nat.pow_two, ← Nat.mul_assoc] at bA bB bC ⊢
  unfold u32Add u32Modulus
  omega

/-- C24: for all RGB colours the value passed to `sqrt` in `distance`, computed
with wrapping 32-bit unsigned arithmetic, equals the exact unbounded-integer
value `⌊(512+rmean)·dr²/256⌋ + 4·dg² + ⌊(767−rmean)·db²/256⌋` with the absolute
channel differences and `rmean = ⌊(r1+r2)/2⌋`. -/
theorem distance_radicand_exact (e1 e2 : RGBColor) :
    distanceRadicand e1 e2
      = (512 + (e1.red.val + e2.red.val) / 2) * absDiff e1.red.val e2.red.val ^ 2 / 256
        + 4 * absDiff e1.green.val e2.green.val ^ 2
        + (767 - (e1.red.val + e2.red.val) / 2) * absDiff e1.blue.val e2.blue.val ^ 2 / 256 :=
  distanceRadicand_eq_exact e1 e2
theorem sq_pos_of_pos (d : Nat) (hd : 1 ≤ d) : 1 ≤ d ^ 2 := by
  rw [Nat.pow_two]
  exact Nat.mul_le_mul hd hd

theorem absDiff_pos (a b : Nat) (h : a ≠ b) : 1 ≤ absDiff a b := by
  unfold absDiff
  split <;> omega

theorem absDiff_self (a : Nat) : absDiff a a = 0 := by
  unfold absDiff
  simp

theorem exactRadicand_ge_two (a b : RGBColor) (h : a ≠ b) : 2 ≤ exactRadicand a b := by
  have hr1 := a.red.isLt
  have hr2 := b.red.isLt
  have hch : a.red.val ≠ b.red.val ∨ a.green.val ≠ b.green.val ∨ a.blue.val ≠ b.blue.val := by
    by_contra hcon
    simp only [not_or, not_not] at hcon
    obtain ⟨c1, c2, c3⟩ := hcon
    apply h
    cases a
    cases b
    simp only [RGBColor.mk.injEq]
    exact ⟨Fin.ext c1, Fin.ext c2, Fin.ext c3⟩
  unfold exactRadicand
  generalize hsr : absDiff a.red.val b.red.val ^ 2 = sr
  generalize hsg : absDiff a.green.val b.green.val ^ 2 = sg
  generalize hsb : absDiff a.blue.val b.blue.val ^ 2 = sb
  generalize hm : (a.red.val + b.red.val) / 2 = m
  have hm255 : m ≤ 255 := by omega
  rcases hch with hc | hc | hc
  · have hs : 1 ≤ sr := by rw [← hsr]; exact sq_pos_of_pos _ (absDiff_pos _ _ hc)
    have hp : 512 * 1 ≤ (512 + m) * sr := Nat.mul_le_mul (by omega) hs
    have : 2 ≤ (512 + m) * sr / 256 := by omega
    omega
  · have hs : 1 ≤ sg := by rw [← hsg]; exact sq_pos_of_pos _ (absDiff_pos _ _ hc)
    omega
  · have hs : 1 ≤ sb := by rw [← hsb]; exact sq_pos_of_pos _ (absDiff_pos _ _ hc)
    have hp : 512 * 1 ≤ (767 - m) * sb := Nat.mul_le_mul (by omega) hs
    have : 2 ≤ (767 - m) * sb / 256 := by omega
    omega

theorem distanceRadicand_eq_zero_iff (a b : RGBColor) : distanceRadicand a b = 0 ↔ a = b := by
  constructor
  · intro h
    by_contra hne
    have := exactRadicand_ge_two a b hne
    rw [distanceRadicand_eq_exact] at h
    omega
  · intro h
    rw [h]
    exact distanceRadicand_self b

theorem exactRadicand_inverse_ge_eight (c : RGBColor) : 8 ≤ exactRadicand c.inverse c := by
  have hr := c.red.isLt
  have hg := c.green.isLt
  have hb := c.blue.isLt
  have er : c.inverse.red.val = 255 - c.red.val := by
    show (255 - c.red.val) % 256 = _
    omega
  have eg : c.inverse.green.val = 255 - c.green.val := by
    show (255 - c.green.val) % 256 = _
    omega
  have eb : c.inverse.blue.val = 255 - c.blue.val := by
    show (255 - c.blue.val) % 256 = _
    omega
  unfold exactRadicand
  rw [er, eg, eb]
  have hm : (255 - c.red.val + c.red.val) / 2 = 127 := by omega
  rw [hm]
  have sr := sq_pos_of_pos _ (absDiff_pos (255 - c.red.val) c.red.val (by omega))
  have sg := sq_pos_of_pos _ (absDiff_pos (255 - c.green.val) c.green.val (by omega))
  have sb := sq_pos_of_pos _ (absDiff_pos (255 - c.blue.val) c.blue.val (by omega))
  generalize absDiff (255 - c.red.val) c.red.val ^ 2 = x at sr ⊢
  generalize absDiff (255 - c.green.val) c.green.val ^ 2 = y at sg ⊢
  generalize absDiff (255 - c.blue.val) c.blue.val ^ 2 = z at sb ⊢
  omega

/-- C25: for every pair `p` and every threshold `t` in [0, 1], that is with
`sqrt(0) <= t` and `sqrt(n) <= t` false from `n = 2` on, `p.isTooSimilar(t)` is true
iff `p.foreground == p.background`; the radicand of `distance(a, b)` is 0 only
when `a == b`, and it is at least 2 for different colours, so their distance is
at least `sqrt(2)`. -/
theorem similar_iff_equal {α : Type} (sqrt : Nat → α) (le : α → α → Bool) (p : RGBColorPair)
    (t : α) (h0 : le (sqrt 0) t = true) (h2 : ∀ n : Nat, 2 ≤ n → le (sqrt n) t = false) :
    (p.isTooSimilar sqrt le t = true ↔ p.foreground = p.background)
      ∧ (∀ a b : RGBColor, distanceRadicand a b = 0 ↔ a = b)
      ∧ (∀ a b : RGBColor, a ≠ b → 2 ≤ distanceRadicand a b) := by
  refine ⟨?_, distanceRadicand_eq_zero_iff, ?_⟩
  · unfold RGBColorPair.isTooSimilar distance
    constructor
    · intro h
      by_contra hne
      have hge := exactRadicand_ge_two p.foreground p.background hne
      rw [← distanceRadicand_eq_exact] at hge
      rw [h2 _ hge] at h
      exact Bool.false_ne_true h
    · intro h
      rw [h, distanceRadicand_self]
      exact h0
  · intro a b hne
    rw [distanceRadicand_eq_exact]
    exact exactRadicand_ge_two a b hne

/-- Witness of C25 at the default threshold 0.1 (`100·0.1² = 1` in squared
hundredths): the pair of black and white. -/
theorem similar_iff_equal_witness :
    leSquared (squaredHundredths 0) 1 = true
      ∧ ((({ foreground := {}, background := white } : RGBColorPair).isTooSimilar
            squaredHundredths leSquared 1 = true)
          ↔ ({} : RGBColor) = white) :=
  ⟨by decide,
    (similar_iff_equal squaredHundredths leSquared { foreground := {}, background := white } 1
      (by decide)
      (fun n hn => by
        unfold leSquared squaredHundredths
        simp only [decide_eq_false_iff_not]
        omega)).1⟩

/-- C26: for every pair `p` and every threshold `t <= 2`, that is with
`sqrt(n) <= t` false from `n = 8` on, the pair `p.distinct(t)` is not too similar
at `t`: the radicand of the distance between `c.inverse()` and `c` is at least 8
for every colour `c`, since no channel `x` satisfies `255 - x == x`. -/
theorem distinct_not_similar {α : Type} (sqrt : Nat → α) (le : α → α → Bool) (p : RGBColorPair)
    (t : α) (h8 : ∀ n : Nat, 8 ≤ n → le (sqrt n) t = false) :
    (p.distinct sqrt le t).isTooSimilar sqrt le t = false
      ∧ (∀ c : RGBColor, 8 ≤ distanceRadicand c.inverse c)
      ∧ (∀ x : Fin 256, 255 - x.val ≠ x.val) := by
  have hinv : ∀ c : RGBColor, 8 ≤ distanceRadicand c.inverse c := by
    intro c
    rw [distanceRadicand_eq_exact]
    exact exactRadicand_inverse_ge_eight c
  refine ⟨?_, hinv, ?_⟩
  · unfold RGBColorPair.distinct
    cases hs : p.isTooSimilar sqrt le t with
    | false =>
      simp only [Bool.false_eq_true, if_false]
      exact hs
    | true =>
      simp only [if_true]
      unfold RGBColorPair.isTooSimilar distance
      exact h8 _ (hinv p.foreground)
  · intro x
    omega

/-- Witness of C26 at the threshold 2 (`100·2² = 400` in squared hundredths): the
pair of white and white. -/
theorem distinct_not_similar_witness :
    (({ foreground := white, background := white } : RGBColorPair).distinct squaredHundredths
        leSquared 400).isTooSimilar squaredHundredths leSquared 400 = false :=
  (distinct_not_similar squaredHundredths leSquared { foreground := white, background := white }
    400
    (fun n hn => by
      unfold leSquared squaredHundredths
      simp only [decide_eq_false_iff_not]
      omega)).1
/-! ## `MockPty.cpp`: read -/

theorem sizeSub_of_le (a b : Nat) (hb : b ≤ a) (ha : a < sizeModulus) : sizeSub a b = a - b := by
  unfold sizeSub
  unfold sizeModulus at ha ⊢
  omega

theorem read_chunk_offset (pty : MockPty) (bytesAvailable size : Nat)
    (hinv : pty.outputReadOffset ≤ pty.outputBuffer.length) :
    (pty.read bytesAvailable size).1
        = (pty.outputBuffer.drop pty.outputReadOffset).take
            (min size (min (pty.outputBuffer.length - pty.outputReadOffset) bytesAvailable))
      ∧ (pty.read bytesAvailable size).2.outputReadOffset
        = pty.outputReadOffset
          + min size (min (pty.outputBuffer.length - pty.outputReadOffset) bytesAvailable)
      ∧ (pty.read bytesAvailable size).2.outputBuffer = pty.outputBuffer := by
  have hfit := pty.bufferFits
  have hsub := sizeSub_of_le pty.outputBuffer.length pty.outputReadOffset hinv hfit
  refine ⟨?_, ?_, rfl⟩
  · unfold MockPty.read
    simp only [hsub]
  · unfold MockPty.read
    simp only [hsub]
    apply Nat.mod_eq_of_lt
    omega

/-- C27: `MockPty::read` keeps the read offset within the output buffer: if
`_outputReadOffset <= _outputBuffer.size()` before the call, the call hands
`n = min(size, _outputBuffer.size() - _outputReadOffset, bytesAvailable)` bytes to
the storage, exactly the `n` bytes of the buffer from the old offset on, the
offset grows by `n` and stays within the buffer, the buffer is unchanged, and a
second read continues where the first one ended. -/
theorem mockPty_read (pty : MockPty) (bytesAvailable size bytesAvailable2 size2 : Nat)
    (hinv : pty.outputReadOffset ≤ pty.outputBuffer.length) :
    (pty.read bytesAvailable size).1
        = (pty.outputBuffer.drop pty.outputReadOffset).take
            (min size (min (pty.outputBuffer.length - pty.outputReadOffset) bytesAvailable))
      ∧ (pty.read bytesAvailable size).1.length
        = min size (min (pty.outputBuffer.length - pty.outputReadOffset) bytesAvailable)
      ∧ (∀ i : Nat,
          i < min size (min (pty.outputBuffer.length - pty.outputReadOffset) bytesAvailable) →
          (pty.read bytesAvailable size).1[i]? = pty.outputBuffer[pty.outputReadOffset + i]?
            ∧ pty.outputReadOffset + i < pty.outputBuffer.length)
      ∧ (pty.read bytesAvailable size).2.outputReadOffset
        = pty.outputReadOffset
          + min size (min (pty.outputBuffer.length - pty.outputReadOffset) bytesAvailable)
      ∧ (pty.read bytesAvailable size).2.outputBuffer = pty.outputBuffer
      ∧ (pty.read bytesAvailable size).2.outputReadOffset
        ≤ (pty.read bytesAvailable size).2.outputBuffer.length
      ∧ (pty.read bytesAvailable size).1
          ++ ((pty.read bytesAvailable size).2.read bytesAvailable2 size2).1
        = (pty.outputBuffer.drop pty.outputReadOffset).take
            ((pty.read bytesAvailable size).1.length
              + ((pty.read bytesAvailable size).2.read bytesAvailable2 size2).1.length) := by
  obtain ⟨hchunk, hoff, hbuf⟩ := read_chunk_offset pty bytesAvailable size hinv
  have hinv2 : (pty.read bytesAvailable size).2.outputReadOffset
      ≤ (pty.read bytesAvailable size).2.outputBuffer.length := by
    rw [hoff, hbuf]
    omega
  obtain ⟨hchunk2, _, _⟩ :=
    read_chunk_offset (pty.read bytesAvailable size).2 bytesAvailable2 size2 hinv2
  rw [hoff, hbuf] at hchunk2
  generalize hn : min size (min (pty.outputBuffer.length - pty.outputReadOffset) bytesAvailable)
    = n at hchunk hoff hchunk2 ⊢
  generalize hm : min size2
    (min (pty.outputBuffer.length - (pty.outputReadOffset + n)) bytesAvailable2) = m at hchunk2
  have hlen : ((pty.outputBuffer.drop pty.outputReadOffset).take n).length = n := by
    rw [List.length_take, List.length_drop]
    omega
  have hlen2 : ((pty.outputBuffer.drop (pty.outputReadOffset + n)).take m).length = m := by
    rw [List.length_take, List.length_drop]
    omega
  refine ⟨hchunk, ?_, ?_, hoff, hbuf, hinv2, ?_⟩
  · rw [hchunk, hlen]
  · intro i hi
    constructor
    · rw [hchunk, List.getElem?_take_of_lt hi, List.getElem?_drop]
    · omega
  · rw [hchunk2, hchunk, hlen, hlen2, List.take_add, List.drop_drop]

/-- Witness of C27: a read of up to 3 bytes into a storage with 2 free bytes, on a
buffer `abcde` whose first byte was read, hands over `bc` and moves the offset
to 3. -/
theorem mockPty_read_witness :
    mockPtyExample.outputReadOffset ≤ mockPtyExample.outputBuffer.length
      ∧ (mockPtyExample.read 2 3).1
        = (mockPtyExample.outputBuffer.drop mockPtyExample.outputReadOffset).take
            (min 3 (min (mockPtyExample.outputBuffer.length - mockPtyExample.outputReadOffset) 2))
      ∧ (mockPtyExample.read 2 3).1 = [0x62, 0x63]
      ∧ (mockPtyExample.read 2 3).2.outputReadOffset = 3 :=
  ⟨by decide, (mockPty_read mockPtyExample 2 3 0 0 (by decide)).1, by decide, by decide⟩

end terminal
